import Mathlib

/-!
# Shallow embedding of the weather-station storage/rollup engine

Source: `src/DHT_driver/DHT_reader_stub.js`, module
`weather_station_database` (the `WeatherStationDatabase` sqlite3 wrapper,
lines 150-1020 of that file).

Modelling conventions:

* SQL `REAL` columns (temperature, humidity and the derived statistics) are
  modelled as `ℚ`: the claims under scrutiny are about the algebra of the
  update formulas, and exact rational arithmetic is the standard idealisation
  of IEEE doubles for that purpose.
* `timestamp` columns are `Nat` (Unix seconds; the station only ever handles
  post-epoch timestamps).
* Each SQL table is a list of rows.  `INSERT` appends, `DELETE ... WHERE
  timestamp = $ts` filters, `SELECT ... WHERE timestamp = $ts` is `find?`,
  and the range `SELECT ... ORDER BY timestamp` filters then sorts.
* The sqlite3 calls are given explicit failure channels only where a claim
  depends on them: the raw-table `INSERT` fails exactly on a primary-key
  collision, and the fault-injection points of `saveWeatherData` (its hour-
  and day-table steps) are explicit `Faults` flags.  `BEGIN`/`COMMIT` are
  modelled as always succeeding.  The crucial behaviour of the source is kept
  as is: an error in a step of `saveWeatherData`/`deleteWeatherData` is passed
  to the best-effort logger and execution *continues to the next step and to
  `COMMIT`*; no `ROLLBACK` statement exists anywhere in the module, and the
  caller's callback only ever receives the result of the final `COMMIT`.
* `timestampFromPattern(ts, '%Y-%M-%d-%H-00-00')` formats `ts` as a UTC
  calendar date, zeroes minutes and seconds, and re-encodes with `Date.UTC`.
  Because Unix time counts exactly 86400 seconds per UTC calendar day (and
  3600 per hour), this is exactly flooring to the enclosing multiple of
  3600; likewise `'%Y-%M-%d-00-00-00'` floors to a multiple of 86400.  Both
  are embedded through `bucketStartOfSpan`.
-/

/-- A row of the `data_raw` table: `{timestamp, temperature, humidity}`. -/
structure RawRow where
  timestamp : Nat
  temperature : ℚ
  humidity : ℚ
deriving DecidableEq, Repr

/-- A row of the `data_per_hour` / `data_per_day` tables. -/
structure AggRow where
  timestamp : Nat
  temperature : ℚ
  humidity : ℚ
  min_temperature : ℚ
  max_temperature : ℚ
  min_humidity : ℚ
  max_humidity : ℚ
  number_values : Nat
deriving DecidableEq, Repr

/-- The running-statistics record built by the reconstruction loop of
`deleteAndUpdateAverages` (the `averages` object, source lines 906-940). -/
structure Averages where
  nb : Nat
  temperature : ℚ
  humidity : ℚ
  min_temperature : ℚ
  max_temperature : ℚ
  min_humidity : ℚ
  max_humidity : ℚ
deriving DecidableEq, Repr

/-- The three data tables owned by one `WeatherStationDatabase`. -/
structure Store where
  data_raw : List RawRow
  data_per_hour : List AggRow
  data_per_day : List AggRow
deriving DecidableEq, Repr

def Store.empty : Store := ⟨[], [], []⟩

/-- Errors surfaced by the modelled sqlite3 layer. -/
inductive DbError where
  | constraintViolation
  | injectedFault
deriving DecidableEq, Repr

/-- `timestampFromPattern` with an hour or day pattern floors a timestamp to
the start of its enclosing bucket of `span` seconds (see header comment). -/
def bucketStartOfSpan (span ts : Nat) : Nat := ts / span * span

/-- `timestampFromPattern(ts, '%Y-%M-%d-%H-00-00')`. -/
def hourBucketKey (ts : Nat) : Nat := bucketStartOfSpan 3600 ts

/-- `timestampFromPattern(ts, '%Y-%M-%d-00-00-00')`. -/
def dayBucketKey (ts : Nat) : Nat := bucketStartOfSpan 86400 ts

/-- `SELECT ... FROM table WHERE timestamp = $ts` (used by `dbGet` in
`addAndUpdateAverages`). -/
def dbGetAgg (table : List AggRow) (ts : Nat) : Option AggRow :=
  table.find? (fun r => r.timestamp == ts)

/-- `SELECT` of a raw row by primary key (used to decide whether the raw
`INSERT` hits a primary-key collision). -/
def dbGetRaw (raw : List RawRow) (ts : Nat) : Option RawRow :=
  raw.find? (fun r => r.timestamp == ts)

/-- SQL `UPDATE table SET ... WHERE timestamp = $ts`. -/
def updateAggRow (table : List AggRow) (ts : Nat) (newRow : AggRow) : List AggRow :=
  table.map (fun r => if r.timestamp == ts then newRow else r)

/-- `insertRawData` (source lines 608-619): `INSERT INTO data_raw(timestamp,
temperature, humidity) VALUES ($ts, $t, $h)`.  The insert fails with a
constraint violation exactly when the primary key `ts` is already present. -/
def insertRawData (raw : List RawRow) (ts : Nat) (t h : ℚ) : Option (List RawRow) :=
  match dbGetRaw raw ts with
  | some _ => none
  | none => some (raw ++ [⟨ts, t, h⟩])

/-- `deleteRawData` (source lines 632-638): `DELETE FROM data_raw WHERE
timestamp = $ts`. -/
def deleteRawData (raw : List RawRow) (ts : Nat) : List RawRow :=
  raw.filter (fun r => !(r.timestamp == ts))

/-- The range `SELECT ... WHERE timestamp >= $t_start AND timestamp < $t_end
ORDER BY timestamp` of `getWeatherData`, on the raw table. -/
def selectRawRange (raw : List RawRow) (t_start t_end : Nat) : List RawRow :=
  (raw.filter (fun r => decide (t_start ≤ r.timestamp ∧ r.timestamp < t_end))).mergeSort
    (fun r₁ r₂ => r₁.timestamp ≤ r₂.timestamp)

/-- The statistics seeded from the first contributing sample: both the
`averages === null` branch of the reconstruction loop (source lines 909-917)
and the values of the fresh-row `INSERT` of `addAndUpdateAverages`
(source lines 766-780). -/
def initAverages (t h : ℚ) : Averages :=
  { nb := 1
    temperature := t
    humidity := h
    min_temperature := t
    max_temperature := t
    min_humidity := h
    max_humidity := h }

/-- One step of the incremental mean/min/max update: the `else` branch of the
reconstruction loop (source lines 919-939).  The update branch of
`addAndUpdateAverages` (source lines 784-808) computes the identical
formulas inline; `addAndUpdateAverages_lookup_self_some` below records
that. -/
def addValueToAverages (a : Averages) (t h : ℚ) : Averages :=
  let nb := a.nb + 1
  { nb := nb
    temperature := a.temperature + (t - a.temperature) / (nb : ℚ)
    humidity := a.humidity + (h - a.humidity) / (nb : ℚ)
    min_temperature := if t < a.min_temperature then t else a.min_temperature
    max_temperature := if t > a.max_temperature then t else a.max_temperature
    min_humidity := if h < a.min_humidity then h else a.min_humidity
    max_humidity := if h > a.max_humidity then h else a.max_humidity }

/-- One iteration of the reconstruction loop of `deleteAndUpdateAverages`
(source lines 907-940): `if (averages === null) { init } else { step }`. -/
def averagesLoopStep (acc : Option Averages) (r : RawRow) : Option Averages :=
  match acc with
  | none => some (initAverages r.temperature r.humidity)
  | some a => some (addValueToAverages a r.temperature r.humidity)

/-- The whole reconstruction loop: fold `averagesLoopStep` over the fetched
rows, starting from `averages = null`. -/
def computeAverages (rows : List RawRow) : Option Averages :=
  rows.foldl averagesLoopStep none

/-- Packaging an `Averages` record as a table row with the given bucket
timestamp — the column list of the `INSERT` statements at source lines
766-780 and 944-958. -/
def rowOfAverages (ts : Nat) (a : Averages) : AggRow :=
  { timestamp := ts
    temperature := a.temperature
    humidity := a.humidity
    min_temperature := a.min_temperature
    max_temperature := a.max_temperature
    min_humidity := a.min_humidity
    max_humidity := a.max_humidity
    number_values := a.nb }

/-- The statistics carried by a table row. -/
def statsOfRow (r : AggRow) : Averages :=
  { nb := r.number_values
    temperature := r.temperature
    humidity := r.humidity
    min_temperature := r.min_temperature
    max_temperature := r.max_temperature
    min_humidity := r.min_humidity
    max_humidity := r.max_humidity }

/-- `addAndUpdateAverages` (source lines 753-831), success path of the
`SELECT`: if no row exists for the bucket timestamp, `INSERT` a fresh row
seeded with the sample; otherwise `UPDATE` it with the incremental
mean/min/max formulas (`new_number_values = n+1`,
`new_temperature = t + (v - t)/new_number_values`, comparisons for
min/max). -/
def addAndUpdateAverages (table : List AggRow) (ts : Nat) (t h : ℚ) : List AggRow :=
  match dbGetAgg table ts with
  | none =>
      table ++ [{ timestamp := ts
                  temperature := t
                  humidity := h
                  min_temperature := t
                  max_temperature := t
                  min_humidity := h
                  max_humidity := h
                  number_values := 1 }]
  | some row =>
      let new_number_values := row.number_values + 1
      let new_temperature := row.temperature + (t - row.temperature) / (new_number_values : ℚ)
      let new_humidity := row.humidity + (h - row.humidity) / (new_number_values : ℚ)
      let new_min_temperature := if t < row.min_temperature then t else row.min_temperature
      let new_max_temperature := if t > row.max_temperature then t else row.max_temperature
      let new_min_humidity := if h < row.min_humidity then h else row.min_humidity
      let new_max_humidity := if h > row.max_humidity then h else row.max_humidity
      updateAggRow table ts
        { timestamp := ts
          temperature := new_temperature
          humidity := new_humidity
          min_temperature := new_min_temperature
          max_temperature := new_max_temperature
          min_humidity := new_min_humidity
          max_humidity := new_max_humidity
          number_values := new_number_values }

/-- Fault-injection switches for the two aggregate steps of
`saveWeatherData` (the spec's "simulated fault injection"): when a switch is
on, the corresponding step's statement fails, its error is handed to the
best-effort logger, and — exactly as in the source — execution continues. -/
structure Faults where
  hourUpdateFails : Bool
  dayUpdateFails : Bool
deriving DecidableEq, Repr

def noFaults : Faults := ⟨false, false⟩

/-- The observable outcome of one `saveWeatherData` call. -/
structure SaveResult where
  store : Store
  /-- What the caller's callback receives: the error of the final `COMMIT`
  (source line 287: `self.dbRun('COMMIT;', {}, callback)`). -/
  callbackErr : Option DbError
  /-- Errors handed to the best-effort `self.log(...)` calls. -/
  loggedErrors : List DbError
deriving DecidableEq, Repr

/-- `saveWeatherData` (source lines 261-292).  `BEGIN`, then
`insertRawData`, then `addAndUpdatePerHourAverages`, then
`addAndUpdatePerDayAverages`, then `COMMIT`.  Each step's error is only
logged; the next step still runs, `COMMIT` is always reached, and the
caller's callback receives the `COMMIT` result.

When the source is called with `timestamp = null`, each of the three steps
*independently* replaces it with `Math.round(Date.now() / 1000)` (source
lines 610-612, 659-661, 678-680); `ts1`, `ts2`, `ts3` are those three clock
reads.  An explicit-timestamp call is the special case
`ts1 = ts2 = ts3`. -/
def saveWeatherData (s : Store) (ts1 ts2 ts3 : Nat) (t h : ℚ) (f : Faults) : SaveResult :=
  -- BEGIN; (modelled as always succeeding)
  let step1 : List RawRow × List DbError :=
    match insertRawData s.data_raw ts1 t h with
    | none => (s.data_raw, [DbError.constraintViolation])
    | some raw' => (raw', [])
  let step2 : List AggRow × List DbError :=
    if f.hourUpdateFails then (s.data_per_hour, [DbError.injectedFault])
    else (addAndUpdateAverages s.data_per_hour (hourBucketKey ts2) t h, [])
  let step3 : List AggRow × List DbError :=
    if f.dayUpdateFails then (s.data_per_day, [DbError.injectedFault])
    else (addAndUpdateAverages s.data_per_day (dayBucketKey ts3) t h, [])
  -- COMMIT; (always succeeds; its error — none — goes to the callback)
  { store := ⟨step1.1, step2.1, step3.1⟩
    callbackErr := none
    loggedErrors := step1.2 ++ step2.2 ++ step3.2 }

/-- Result of `getWeatherData` (the object built at source lines 460-468). -/
structure GetWeatherDataResult where
  timestamp_start : Nat
  timestamp_end : Nat
  granularity : String
  data : List RawRow
deriving DecidableEq, Repr

/-- What a caller of the raw-granularity path of `getWeatherData` (source
lines 440-471) observes. -/
inductive GetWeatherDataOutcome where
  /-- The `SELECT` failed: the error branch at source line 449 evaluates
  `wsdb.log(...)` first, but `wsdb` is not defined in this method's scope
  (the method's own alias is `self`, line 441; `wsdb` is only a parameter
  of the module-level helper functions), so resolving it throws a
  ReferenceError before line 450 ever runs `callback(err, null)`. -/
  | referenceErrorThrown
  /-- The `SELECT` succeeded: `callback(null, {..., data: rows})` (source
  lines 460-468). -/
  | callbackSuccess (data : GetWeatherDataResult)
deriving DecidableEq, Repr

/-- The raw-granularity path of `getWeatherData` as used by the delete
recomputation (`wsdb.getWeatherData(start, start + timeframe, 'raw', cb)`,
source line 891).  `queryErr` injects a failure of the `SELECT`. -/
def getWeatherDataRaw (raw : List RawRow) (t_start t_end : Nat)
    (queryErr : Option DbError) : GetWeatherDataOutcome :=
  match queryErr with
  | some _ => GetWeatherDataOutcome.referenceErrorThrown
  | none =>
      GetWeatherDataOutcome.callbackSuccess
        ⟨t_start, t_end, "raw", selectRawRange raw t_start t_end⟩

/-- Observable outcome of the re-fetch step inside
`deleteAndUpdateAverages` (source lines 891-965). -/
inductive RefetchOutcome where
  /-- The re-fetch callback was never invoked: `getWeatherData`'s error
  branch threw a ReferenceError (undefined `wsdb`, source line 449)
  first. -/
  | referenceErrorThrown
  /-- `var rows = data.data;` evaluated with `data = null` throws a
  TypeError out of the callback. -/
  | nullDereference
  /-- `callback(err)` taken at source line 901. -/
  | callbackError (e : DbError)
  /-- The reconstruction completed; the table now has this content. -/
  | callbackDone (table : List AggRow)
deriving DecidableEq, Repr

/-- The body of the re-fetch callback of `deleteAndUpdateAverages` (source
lines 891-965), transcribed with the source's statement order: line 892
reads `data.data` *before* the `if (err)` test at line 900, so this body
would dereference null if it were handed an error result (whose `data` is
`null`).  In the running program `getWeatherData` only ever invokes it with
a success result, because its error branch throws before the callback call
(see `GetWeatherDataOutcome.referenceErrorThrown`). -/
def deleteRefetchHandler (table1 : List AggRow) (timestamp_start : Nat)
    (err : Option DbError) (data : Option GetWeatherDataResult) : RefetchOutcome :=
  match data with
  | none => RefetchOutcome.nullDereference
  | some d =>
    let rows := d.data
    match err with
    | some e => RefetchOutcome.callbackError e
    | none =>
      match computeAverages rows with
      | some averages =>
          RefetchOutcome.callbackDone (table1 ++ [rowOfAverages timestamp_start averages])
      | none => RefetchOutcome.callbackDone table1

/-- `deleteAndUpdateAverages` (source lines 848-969) with an injectable
re-fetch failure: choose the span and bucket start, `DELETE` the bucket's
aggregate row, re-fetch the raw rows of `[start, start + span)`.  If the
re-fetch `SELECT` fails, `getWeatherData` throws before invoking the
callback, and the exception propagates; otherwise the reconstruction
callback runs with `(null, data)` (source lines 460-468). -/
def deleteAndUpdateAveragesRun (raw : List RawRow) (table : List AggRow)
    (span : Nat) (ts : Nat) (queryErr : Option DbError) : RefetchOutcome :=
  let timestamp_start := bucketStartOfSpan span ts
  -- DELETE FROM table WHERE timestamp = $timestamp_start;
  let table1 := table.filter (fun r => !(r.timestamp == timestamp_start))
  match getWeatherDataRaw raw timestamp_start (timestamp_start + span) queryErr with
  | GetWeatherDataOutcome.referenceErrorThrown => RefetchOutcome.referenceErrorThrown
  | GetWeatherDataOutcome.callbackSuccess data =>
      deleteRefetchHandler table1 timestamp_start none (some data)

/-- The error-free path of `deleteAndUpdateAverages`, as a table
transformer. -/
def deleteAndUpdateAverages (raw : List RawRow) (table : List AggRow)
    (span : Nat) (ts : Nat) : List AggRow :=
  let timestamp_start := bucketStartOfSpan span ts
  let table1 := table.filter (fun r => !(r.timestamp == timestamp_start))
  match computeAverages (selectRawRange raw timestamp_start (timestamp_start + span)) with
  | some averages => table1 ++ [rowOfAverages timestamp_start averages]
  | none => table1

/-- `deleteWeatherData` (source lines 304-335): `BEGIN`, `deleteRawData`,
`deleteAndUpdateAverages` on the hour table (span 3600), then on the day
table (span 86400), `COMMIT`; as in `saveWeatherData` the callback receives
the `COMMIT` result.  The recomputations read the raw table *after* the raw
delete (all statements run inside the same connection/transaction). -/
def deleteWeatherData (s : Store) (ts : Nat) : Store × Option DbError :=
  let raw := deleteRawData s.data_raw ts
  let hourTable := deleteAndUpdateAverages raw s.data_per_hour 3600 ts
  let dayTable := deleteAndUpdateAverages raw s.data_per_day 86400 ts
  (⟨raw, hourTable, dayTable⟩, none)

/-- Constructor options of `WeatherStationDatabase` (`none` = key absent). -/
structure WsdbOptions where
  hourGranularityThreshold : Option Int
  dayGranularityThreshold : Option Int
deriving DecidableEq, Repr

/-- The two threshold fields set by the constructor. -/
structure WsdbConfig where
  hourGranularityThreshold : Int
  dayGranularityThreshold : Int
deriving DecidableEq, Repr

/-- JavaScript `x || d` on an optional numeric option: the default is used
when the key is absent, and also when the given value is falsy (`0`). -/
def jsOrInt : Option Int → Int → Int
  | none, d => d
  | some v, d => if v = 0 then d else v

/-- The threshold initialisation of the constructor (source lines 207-208).
Line 208 of the source reads `options.hourGranularityThreshold` — not
`options.dayGranularityThreshold` — before defaulting to 2678400; this is
transcribed as is. -/
def mkWsdbConfig (options : WsdbOptions) : WsdbConfig :=
  { hourGranularityThreshold := jsOrInt options.hourGranularityThreshold 604800
    dayGranularityThreshold := jsOrInt options.hourGranularityThreshold 2678400 }

/-- The granularity `switch` of `getWeatherData` (source lines 394-425),
returning the name of the table that will be queried.  `granularity` is the
caller's argument (`none` models JavaScript `null`; any string other than
the three valid ones falls through to the `default` arm, as in the
source). -/
def selectDataTable (cfg : WsdbConfig) (timestamp_start timestamp_end : Int)
    (granularity : Option String) : String :=
  match granularity with
  | some "raw" => "data_raw"
  | some "hour" => "data_per_hour"
  | some "day" => "data_per_day"
  | _ =>
    let timeframe := timestamp_end - timestamp_start
    if timeframe > cfg.dayGranularityThreshold then "data_per_day"
    else if timeframe > cfg.hourGranularityThreshold then "data_per_hour"
    else "data_raw"

/-- Observable outcome of one `log(type, message, callback?)` call
(source lines 489-530). -/
structure LogOutcome where
  /-- Whether an exception escapes to the caller of `log`. -/
  raisedToCaller : Bool
  /-- `some v`: the caller-supplied callback was invoked with `v`
  (`some e` = an error, `none` = `undefined`); `none`: no callback was
  invoked. -/
  callbackInvokedWith : Option (Option DbError)
  /-- Whether the failure was dumped on `console.error` (STDERR). -/
  wroteToStderr : Bool
  /-- Whether the log row was inserted. -/
  logRowInserted : Bool
deriving DecidableEq, Repr

/-- `log` (source lines 489-530): the `INSERT INTO logs` always goes through
`dbRun` *with* a completion callback ("Make sure no exception is thrown if
an error occurs by passing in a callback"), so nothing is ever raised to the
caller.  On insert failure the error goes to the caller's callback if one
was supplied, and to `console.error` otherwise. -/
def logOperation (hasCallback : Bool) (insertErr : Option DbError) : LogOutcome :=
  match insertErr with
  | some e =>
      if hasCallback then
        { raisedToCaller := false
          callbackInvokedWith := some (some e)
          wroteToStderr := false
          logRowInserted := false }
      else
        { raisedToCaller := false
          callbackInvokedWith := none
          wroteToStderr := true
          logRowInserted := false }
  | none =>
      if hasCallback then
        { raisedToCaller := false
          callbackInvokedWith := some none
          wroteToStderr := false
          logRowInserted := true }
      else
        { raisedToCaller := false
          callbackInvokedWith := none
          wroteToStderr := false
          logRowInserted := true }

/-- One top-level write operation against the store (an explicit-timestamp
`saveWeatherData` or a `deleteWeatherData`). -/
inductive WsOp where
  | save (ts : Nat) (t h : ℚ)
  | del (ts : Nat)
deriving DecidableEq

def applyOp (s : Store) : WsOp → Store
  | WsOp.save ts t h => (saveWeatherData s ts ts ts t h noFaults).store
  | WsOp.del ts => (deleteWeatherData s ts).1

def applyOps (s : Store) : List WsOp → Store
  | [] => s
  | op :: rest => applyOps (applyOp s op) rest

/-- Each `save` of the sequence targets a timestamp that is free in the raw
table at the moment it runs (so its raw `INSERT` does not hit the primary
key). -/
def OpsFresh : Store → List WsOp → Prop
  | _, [] => True
  | s, op :: rest =>
    (match op with
     | WsOp.save ts _ _ => dbGetRaw s.data_raw ts = none
     | WsOp.del _ => True) ∧ OpsFresh (applyOp s op) rest

/-- Looking a key up after `UPDATE ... WHERE timestamp = $ts` with a
replacement row carrying that same key finds the replacement, provided the
key was present. -/
theorem dbGetAgg_updateAggRow_self (table : List AggRow) (ts : Nat) (newRow : AggRow)
    (hsome : (dbGetAgg table ts).isSome) (hts : newRow.timestamp = ts) :
    dbGetAgg (updateAggRow table ts newRow) ts = some newRow := by
  induction table with
  | nil => simp [dbGetAgg] at hsome
  | cons r rest ih =>
    by_cases hr : r.timestamp = ts
    · simp [dbGetAgg, updateAggRow, List.find?_cons_of_pos, hr, hts]
    · rw [dbGetAgg, List.find?_cons_of_neg _ (by simp [hr])] at hsome
      have step : updateAggRow (r :: rest) ts newRow = r :: updateAggRow rest ts newRow := by
        simp [updateAggRow, hr]
      rw [step, dbGetAgg, List.find?_cons_of_neg _ (by simp [hr])]
      exact ih hsome

/-- C2: with default options the auto-selection compares `end - start`
against 604800 and 2678400 with strict `>` (a span of exactly 604800 selects
`raw`, 604801 selects `hour`, 2678401 selects `day`) — but the two
thresholds are NOT independently configurable: the constructor (source line
208) initialises `dayGranularityThreshold` from
`options.hourGranularityThreshold`, so the `dayGranularityThreshold` option
is ignored and any configured hour threshold silently overwrites the day
threshold, contradicting both the claim and the constructor's own
docblock. -/
theorem granularity_selection_and_threshold_bug :
    (mkWsdbConfig ⟨none, none⟩ = ⟨604800, 2678400⟩) ∧
    (∀ s : Int, selectDataTable (mkWsdbConfig ⟨none, none⟩) s (s + 604800) none = "data_raw") ∧
    (∀ s : Int, selectDataTable (mkWsdbConfig ⟨none, none⟩) s (s + 604801) none = "data_per_hour") ∧
    (∀ s : Int, selectDataTable (mkWsdbConfig ⟨none, none⟩) s (s + 2678400) none = "data_per_hour") ∧
    (∀ s : Int, selectDataTable (mkWsdbConfig ⟨none, none⟩) s (s + 2678401) none = "data_per_day") ∧
    (mkWsdbConfig ⟨none, some 1000000⟩).dayGranularityThreshold = 2678400 ∧
    (mkWsdbConfig ⟨some 100, some 1000000⟩).dayGranularityThreshold = 100 := by
  refine ⟨rfl, ?_, ?_, ?_, ?_, rfl, rfl⟩ <;>
    · intro s
      simp only [selectDataTable, mkWsdbConfig, jsOrInt]
      norm_num

/-- C7: `log` never raises to its caller; an insert failure reaches the
caller exactly when an explicit completion callback was supplied, and is
otherwise dumped on the process's STDERR. -/
theorem log_never_raises (cb : Bool) (err : Option DbError) :
    (logOperation cb err).raisedToCaller = false ∧
    ((∃ e, (logOperation cb err).callbackInvokedWith = some (some e)) ↔
      (cb = true ∧ ∃ e, err = some e)) ∧
    ((logOperation false err).callbackInvokedWith = none) ∧
    ((logOperation false err).wroteToStderr = err.isSome) := by
  cases cb <;> cases err <;> simp [logOperation]

/-- C9 counterexample: with the re-fetch `SELECT` failing on a concrete
store, the outcome of the bucket recomputation is the ReferenceError thrown
inside `getWeatherData`'s own error branch (undefined `wsdb`, line 449) —
not the line-892 null dereference the claim describes: the re-fetch
callback is never invoked, so the data field of a null result is never
read. -/
theorem delete_refetch_error_counterexample :
    deleteAndUpdateAveragesRun [⟨1000, 20, 50⟩] [⟨0, 20, 50, 20, 20, 50, 50, 1⟩]
        3600 1000 (some DbError.injectedFault)
      = RefetchOutcome.referenceErrorThrown ∧
    deleteAndUpdateAveragesRun [⟨1000, 20, 50⟩] [⟨0, 20, 50, 20, 20, 50, 50, 1⟩]
        3600 1000 (some DbError.injectedFault)
      ≠ RefetchOutcome.nullDereference := by
  refine ⟨rfl, ?_⟩
  simp [deleteAndUpdateAveragesRun, getWeatherDataRaw]

/-- C9 amended: when the internal raw-range re-fetch query of the bucket
recomputation returns an error, `getWeatherData`'s error branch itself
throws a ReferenceError — it evaluates the undefined identifier `wsdb`
(line 449) before `callback(err, null)` (line 450) can run — so the
re-fetch callback is never invoked and the error value is never delivered
to the caller's callback through the error parameter.  The callback body
(line 892) does read `data.data` before the `if (err)` check at line 900,
so it would dereference the null data of an error result if it were ever
invoked with one. -/
theorem delete_refetch_error_throws_reference_error (raw : List RawRow)
    (table : List AggRow) (span ts : Nat) (e : DbError) :
    deleteAndUpdateAveragesRun raw table span ts (some e)
      = RefetchOutcome.referenceErrorThrown ∧
    (∀ (table1 : List AggRow) (k : Nat),
      deleteRefetchHandler table1 k (some e) none = RefetchOutcome.nullDereference) ∧
    deleteAndUpdateAveragesRun raw table span ts (some e)
      ≠ RefetchOutcome.callbackError e := by
  refine ⟨rfl, fun table1 k => rfl, ?_⟩
  simp [deleteAndUpdateAveragesRun, getWeatherDataRaw]

/-- C8: a `saveWeatherData` whose timestamp collides with an existing raw
primary key leaves the raw table unchanged (the constraint error is only
logged), still folds the new value into both the hour and day aggregates,
and commits — the caller's callback receives the `COMMIT` result, no
error. -/
theorem save_duplicate_timestamp_still_updates_aggregates
    (s : Store) (ts : Nat) (t h : ℚ) (row₀ : RawRow)
    (hdup : dbGetRaw s.data_raw ts = some row₀) :
    (saveWeatherData s ts ts ts t h noFaults).store.data_raw = s.data_raw ∧
    (saveWeatherData s ts ts ts t h noFaults).store.data_per_hour
      = addAndUpdateAverages s.data_per_hour (hourBucketKey ts) t h ∧
    (saveWeatherData s ts ts ts t h noFaults).store.data_per_day
      = addAndUpdateAverages s.data_per_day (dayBucketKey ts) t h ∧
    (saveWeatherData s ts ts ts t h noFaults).callbackErr = none ∧
    (saveWeatherData s ts ts ts t h noFaults).loggedErrors = [DbError.constraintViolation] := by
  simp [saveWeatherData, insertRawData, hdup, noFaults]

/-- Witness for `save_duplicate_timestamp_still_updates_aggregates` at a
one-row store. -/
theorem save_duplicate_timestamp_still_updates_aggregates_witness :
    (saveWeatherData ⟨[⟨1000, 20, 50⟩], [⟨0, 20, 50, 20, 20, 50, 50, 1⟩],
        [⟨0, 20, 50, 20, 20, 50, 50, 1⟩]⟩ 1000 1000 1000 30 60 noFaults).store.data_raw
      = [⟨1000, 20, 50⟩] ∧
    (saveWeatherData ⟨[⟨1000, 20, 50⟩], [⟨0, 20, 50, 20, 20, 50, 50, 1⟩],
        [⟨0, 20, 50, 20, 20, 50, 50, 1⟩]⟩ 1000 1000 1000 30 60 noFaults).callbackErr = none :=
  by
    have h := save_duplicate_timestamp_still_updates_aggregates
      ⟨[⟨1000, 20, 50⟩], [⟨0, 20, 50, 20, 20, 50, 50, 1⟩], [⟨0, 20, 50, 20, 20, 50, 50, 1⟩]⟩
      1000 30 60 ⟨1000, 20, 50⟩ (by simp [dbGetRaw])
    exact ⟨h.1, h.2.2.2.1⟩

/-- C1 counterexample: with the day-table update failing (fault injection)
on an empty store, `saveWeatherData(1000, 20, 50)` persists both the
RawSample row and the hour-table row, and reports no error to the caller —
there is no rollback. -/
theorem save_not_atomic_counterexample :
    (saveWeatherData Store.empty 1000 1000 1000 20 50 ⟨false, true⟩).store.data_raw
      = [⟨1000, 20, 50⟩] ∧
    (saveWeatherData Store.empty 1000 1000 1000 20 50 ⟨false, true⟩).store.data_per_hour
      = [⟨0, 20, 50, 20, 20, 50, 50, 1⟩] ∧
    (saveWeatherData Store.empty 1000 1000 1000 20 50 ⟨false, true⟩).store.data_per_day = [] ∧
    (saveWeatherData Store.empty 1000 1000 1000 20 50 ⟨false, true⟩).callbackErr = none ∧
    (saveWeatherData Store.empty 1000 1000 1000 20 50 ⟨false, true⟩).loggedErrors
      = [DbError.injectedFault] := by
  refine ⟨?_, ?_, rfl, rfl, rfl⟩ <;>
    simp [saveWeatherData, insertRawData, dbGetRaw, Store.empty, addAndUpdateAverages,
      dbGetAgg, hourBucketKey, bucketStartOfSpan]

/-- C1 amended: `saveWeatherData` runs its three steps between `BEGIN` and
`COMMIT` but never rolls back — a failing day-table update is logged
(best-effort) and the transaction still commits, so the RawSample row and
the hour-table row from that call ARE persisted, and the caller's callback
receives only the (successful) `COMMIT` result, not the step's error. -/
theorem save_day_fault_commits_partial_write
    (s : Store) (ts : Nat) (t h : ℚ) (hfresh : dbGetRaw s.data_raw ts = none) :
    (saveWeatherData s ts ts ts t h ⟨false, true⟩).store.data_raw
      = s.data_raw ++ [⟨ts, t, h⟩] ∧
    (saveWeatherData s ts ts ts t h ⟨false, true⟩).store.data_per_hour
      = addAndUpdateAverages s.data_per_hour (hourBucketKey ts) t h ∧
    (saveWeatherData s ts ts ts t h ⟨false, true⟩).store.data_per_day = s.data_per_day ∧
    (saveWeatherData s ts ts ts t h ⟨false, true⟩).callbackErr = none ∧
    (saveWeatherData s ts ts ts t h ⟨false, true⟩).loggedErrors = [DbError.injectedFault] := by
  simp [saveWeatherData, insertRawData, hfresh]

/-- Witness for `save_day_fault_commits_partial_write` on the empty store. -/
theorem save_day_fault_commits_partial_write_witness :
    (saveWeatherData Store.empty 1000 1000 1000 20 50 ⟨false, true⟩).store.data_raw
      = [⟨1000, 20, 50⟩] ∧
    (saveWeatherData Store.empty 1000 1000 1000 20 50 ⟨false, true⟩).callbackErr = none := by
  have h := save_day_fault_commits_partial_write Store.empty 1000 20 50 (by simp [dbGetRaw, Store.empty])
  exact ⟨h.1, h.2.2.2.1⟩

/-- C3: `addAndUpdateAverages` inserts
`{timestamp=key, temperature, humidity, min=max=value, number_values=1}`
when the bucket row is absent, and otherwise updates the row in place with
`number_values = n+1`, `mean' = mean + (value - mean)/(n+1)` for both means,
and min/max by direct comparison with the new value. -/
theorem addAndUpdateAverages_spec (table : List AggRow) (ts : Nat) (t h : ℚ) :
    (dbGetAgg table ts = none →
      addAndUpdateAverages table ts t h = table ++ [⟨ts, t, h, t, t, h, h, 1⟩]) ∧
    (∀ row, dbGetAgg table ts = some row →
      ∃ row', dbGetAgg (addAndUpdateAverages table ts t h) ts = some row' ∧
        row'.timestamp = ts ∧
        row'.number_values = row.number_values + 1 ∧
        row'.temperature
          = row.temperature + (t - row.temperature) / ((row.number_values : ℚ) + 1) ∧
        row'.humidity = row.humidity + (h - row.humidity) / ((row.number_values : ℚ) + 1) ∧
        row'.min_temperature = (if t < row.min_temperature then t else row.min_temperature) ∧
        row'.max_temperature = (if t > row.max_temperature then t else row.max_temperature) ∧
        row'.min_humidity = (if h < row.min_humidity then h else row.min_humidity) ∧
        row'.max_humidity = (if h > row.max_humidity then h else row.max_humidity)) := by
  constructor
  · intro hnone
    simp [addAndUpdateAverages, hnone]
  · intro row hrow
    refine ⟨{ timestamp := ts
              temperature := row.temperature
                + (t - row.temperature) / (((row.number_values + 1 : Nat) : ℚ))
              humidity := row.humidity + (h - row.humidity) / (((row.number_values + 1 : Nat) : ℚ))
              min_temperature := if t < row.min_temperature then t else row.min_temperature
              max_temperature := if t > row.max_temperature then t else row.max_temperature
              min_humidity := if h < row.min_humidity then h else row.min_humidity
              max_humidity := if h > row.max_humidity then h else row.max_humidity
              number_values := row.number_values + 1 },
      ?_, rfl, rfl, by push_cast; ring, by push_cast; ring, rfl, rfl, rfl, rfl⟩
    simp only [addAndUpdateAverages, hrow]
    exact dbGetAgg_updateAggRow_self table ts _ (by simp [hrow]) rfl

/-- Witness for `addAndUpdateAverages_spec`: adding (30, 60) to a one-sample
bucket row. -/
theorem addAndUpdateAverages_spec_witness :
    ∃ row', dbGetAgg (addAndUpdateAverages [⟨0, 20, 50, 20, 20, 50, 50, 1⟩] 0 30 60) 0
        = some row' ∧
      row'.timestamp = 0 ∧
      row'.number_values = (2 : Nat) ∧
      row'.temperature = 20 + (30 - 20) / ((1 : ℚ) + 1) ∧
      row'.humidity = 50 + (60 - 50) / ((1 : ℚ) + 1) ∧
      row'.min_temperature = (if (30 : ℚ) < 20 then 30 else 20) ∧
      row'.max_temperature = (if (30 : ℚ) > 20 then 30 else 20) ∧
      row'.min_humidity = (if (60 : ℚ) < 50 then 60 else 50) ∧
      row'.max_humidity = (if (60 : ℚ) > 50 then 60 else 50) := by
  have h := (addAndUpdateAverages_spec [⟨0, 20, 50, 20, 20, 50, 50, 1⟩] 0 30 60).2
    ⟨0, 20, 50, 20, 20, 50, 50, 1⟩ (by simp [dbGetAgg])
  obtain ⟨row', h1, h2, h3, h4, h5, h6, h7, h8, h9⟩ := h
  exact ⟨row', h1, h2, h3, by simpa using h4, by simpa using h5, h6, h7, h8, h9⟩

/-- C10 counterexample: with `timestamp = null`, clock reads 100, 100, 3700
(the third read in a *different hour* but the same day) still produce full
agreement — the hour aggregate lands on the raw row's hour bucket and the
day aggregate on its day bucket — refuting the claim that agreement happens
only when all three reads fall in the same hour and day. -/
theorem save_null_timestamp_counterexample :
    (saveWeatherData Store.empty 100 100 3700 20 50 noFaults).store.data_raw
      = [⟨100, 20, 50⟩] ∧
    (saveWeatherData Store.empty 100 100 3700 20 50 noFaults).store.data_per_hour
      = [⟨hourBucketKey 100, 20, 50, 20, 20, 50, 50, 1⟩] ∧
    (saveWeatherData Store.empty 100 100 3700 20 50 noFaults).store.data_per_day
      = [⟨dayBucketKey 100, 20, 50, 20, 20, 50, 50, 1⟩] ∧
    hourBucketKey 3700 ≠ hourBucketKey 100 := by
  refine ⟨?_, ?_, ?_, by decide⟩ <;>
    simp [saveWeatherData, insertRawData, dbGetRaw, Store.empty, addAndUpdateAverages,
      dbGetAgg, hourBucketKey, dayBucketKey, bucketStartOfSpan, noFaults]

/-- C10 amended: with `timestamp = null` the current time is read
independently three times — the raw row records the first read `t1`, the
hour aggregate goes to `hourBucketKey t2`, the day aggregate to
`dayBucketKey t3`; the updated buckets agree with the raw row's buckets
exactly when the second read stays in the first read's hour and the third in
its day; and a clock progression crossing an hour boundary between the
first two reads (3599 then 3600) records the raw sample in one bucket while
updating a different bucket's aggregate. -/
theorem save_null_timestamp_three_reads (t1 t2 t3 : Nat) (t h : ℚ) :
    (saveWeatherData Store.empty t1 t2 t3 t h noFaults).store.data_raw = [⟨t1, t, h⟩] ∧
    (saveWeatherData Store.empty t1 t2 t3 t h noFaults).store.data_per_hour
      = [⟨hourBucketKey t2, t, h, t, t, h, h, 1⟩] ∧
    (saveWeatherData Store.empty t1 t2 t3 t h noFaults).store.data_per_day
      = [⟨dayBucketKey t3, t, h, t, t, h, h, 1⟩] ∧
    (((saveWeatherData Store.empty t1 t2 t3 t h noFaults).store.data_per_hour
        = [⟨hourBucketKey t1, t, h, t, t, h, h, 1⟩] ∧
      (saveWeatherData Store.empty t1 t2 t3 t h noFaults).store.data_per_day
        = [⟨dayBucketKey t1, t, h, t, t, h, h, 1⟩]) ↔
      (hourBucketKey t2 = hourBucketKey t1 ∧ dayBucketKey t3 = dayBucketKey t1)) ∧
    (saveWeatherData Store.empty 3599 3600 3600 t h noFaults).store.data_raw
      = [⟨3599, t, h⟩] ∧
    hourBucketKey 3599 = 0 ∧
    (saveWeatherData Store.empty 3599 3600 3600 t h noFaults).store.data_per_hour
      = [⟨3600, t, h, t, t, h, h, 1⟩] := by
  have hsave : ∀ (a b c : Nat),
      (saveWeatherData Store.empty a b c t h noFaults).store.data_raw = [⟨a, t, h⟩] ∧
      (saveWeatherData Store.empty a b c t h noFaults).store.data_per_hour
        = [⟨hourBucketKey b, t, h, t, t, h, h, 1⟩] ∧
      (saveWeatherData Store.empty a b c t h noFaults).store.data_per_day
        = [⟨dayBucketKey c, t, h, t, t, h, h, 1⟩] := by
    intro a b c
    refine ⟨?_, ?_, ?_⟩ <;>
      simp [saveWeatherData, insertRawData, dbGetRaw, Store.empty, addAndUpdateAverages,
        dbGetAgg, noFaults]
  obtain ⟨h1, h2, h3⟩ := hsave t1 t2 t3
  obtain ⟨g1, g2, g3⟩ := hsave 3599 3600 3600
  refine ⟨h1, h2, h3, ?_, g1, by decide, ?_⟩
  · rw [h2, h3]
    constructor
    · rintro ⟨e1, e2⟩
      simp only [List.cons.injEq, and_true, AggRow.mk.injEq] at e1 e2
      exact ⟨e1, e2⟩
    · rintro ⟨e1, e2⟩
      rw [e1, e2]
      exact ⟨rfl, rfl⟩
  · rw [g2]
    norm_num [hourBucketKey, bucketStartOfSpan]

/-- The source's min update `if (v < cur) { cur = v }` computes `min`. -/
theorem ite_lt_eq_min (m t : ℚ) : (if t < m then t else m) = min m t := by
  split_ifs with hc
  · exact (min_eq_right hc.le).symm
  · exact (min_eq_left (not_lt.mp hc)).symm

/-- The source's max update `if (v > cur) { cur = v }` computes `max`. -/
theorem ite_gt_eq_max (m t : ℚ) : (if t > m then t else m) = max m t := by
  split_ifs with hc
  · exact (max_eq_right hc.le).symm
  · exact (max_eq_left (not_lt.mp hc)).symm

/-- Over exact arithmetic, the order in which two samples are folded into the
running statistics does not matter. -/
theorem averagesLoopStep_rightComm (acc : Option Averages) (r₁ r₂ : RawRow) :
    averagesLoopStep (averagesLoopStep acc r₁) r₂
      = averagesLoopStep (averagesLoopStep acc r₂) r₁ := by
  cases acc with
  | none =>
    simp only [averagesLoopStep, initAverages, addValueToAverages, Option.some.injEq,
      Averages.mk.injEq]
    refine ⟨trivial, by push_cast; ring, by push_cast; ring, ?_, ?_, ?_, ?_⟩ <;>
      · split_ifs <;> linarith
  | some a =>
    have h1 : ((a.nb : ℚ) + 1) ≠ 0 := by positivity
    have h2 : ((a.nb : ℚ) + 1 + 1) ≠ 0 := by positivity
    simp only [averagesLoopStep, addValueToAverages, Option.some.injEq, Averages.mk.injEq]
    refine ⟨trivial, ?_, ?_, ?_, ?_, ?_, ?_⟩
    · push_cast
      field_simp
      ring
    · push_cast
      field_simp
      ring
    · split_ifs <;> linarith
    · split_ifs <;> linarith
    · split_ifs <;> linarith
    · split_ifs <;> linarith

/-- Folding a right-commutative operation is invariant under permutation. -/
theorem foldl_eq_of_rightComm {α β : Type} (f : β → α → β)
    (hf : ∀ b a₁ a₂, f (f b a₁) a₂ = f (f b a₂) a₁) {l₁ l₂ : List α}
    (hperm : l₁.Perm l₂) : ∀ b, l₁.foldl f b = l₂.foldl f b := by
  induction hperm with
  | nil => intro b; rfl
  | cons x _ ih => intro b; simpa using ih (f b x)
  | swap x y l => intro b; simp [List.foldl_cons, hf]
  | trans _ _ ih₁ ih₂ => intro b; rw [ih₁, ih₂]

/-- The reconstruction loop computes the same statistics for any ordering of
the fetched rows. -/
theorem computeAverages_perm {l₁ l₂ : List RawRow} (h : l₁.Perm l₂) :
    computeAverages l₁ = computeAverages l₂ :=
  foldl_eq_of_rightComm averagesLoopStep averagesLoopStep_rightComm h none

theorem computeAverages_append_singleton (l : List RawRow) (r : RawRow) :
    computeAverages (l ++ [r]) = averagesLoopStep (computeAverages l) r := by
  simp [computeAverages, List.foldl_append]

/-- Total fold of the incremental step, starting from known statistics. -/
def foldValuesFrom (a : Averages) (rows : List RawRow) : Averages :=
  rows.foldl (fun acc r => addValueToAverages acc r.temperature r.humidity) a

theorem foldl_averagesLoopStep_some (xs : List RawRow) :
    ∀ a : Averages, xs.foldl averagesLoopStep (some a) = some (foldValuesFrom a xs) := by
  induction xs with
  | nil => intro a; rfl
  | cons x xs ih =>
    intro a
    simpa [foldValuesFrom] using ih (addValueToAverages a x.temperature x.humidity)

theorem computeAverages_cons (x : RawRow) (xs : List RawRow) :
    computeAverages (x :: xs)
      = some (foldValuesFrom (initAverages x.temperature x.humidity) xs) := by
  simp only [computeAverages, List.foldl_cons]
  exact foldl_averagesLoopStep_some xs _

theorem computeAverages_eq_none_iff (l : List RawRow) : computeAverages l = none ↔ l = [] := by
  cases l with
  | nil => simp [computeAverages]
  | cons x xs => simp [computeAverages_cons]

theorem foldValuesFrom_nb (xs : List RawRow) :
    ∀ a : Averages, (foldValuesFrom a xs).nb = a.nb + xs.length := by
  induction xs with
  | nil => intro a; simp [foldValuesFrom]
  | cons x xs ih =>
    intro a
    have : foldValuesFrom a (x :: xs)
        = foldValuesFrom (addValueToAverages a x.temperature x.humidity) xs := rfl
    rw [this, ih]
    simp [addValueToAverages]
    omega

/-- One incremental-mean step in closed form:
`m + (v - m)/(n+1) = (m*n + v)/(n+1)`. -/
theorem addValueToAverages_temperature (a : Averages) (t h : ℚ) :
    (addValueToAverages a t h).temperature * ((a.nb : ℚ) + 1)
      = a.temperature * a.nb + t := by
  have h1 : ((a.nb : ℚ) + 1) ≠ 0 := by positivity
  simp only [addValueToAverages]
  push_cast
  field_simp
  ring

theorem addValueToAverages_humidity (a : Averages) (t h : ℚ) :
    (addValueToAverages a t h).humidity * ((a.nb : ℚ) + 1)
      = a.humidity * a.nb + h := by
  have h1 : ((a.nb : ℚ) + 1) ≠ 0 := by positivity
  simp only [addValueToAverages]
  push_cast
  field_simp
  ring

/-- The fold keeps `mean * count = sum` for the temperature column. -/
theorem foldValuesFrom_temperature (xs : List RawRow) :
    ∀ a : Averages,
      (foldValuesFrom a xs).temperature * ((a.nb : ℚ) + (xs.length : ℚ))
        = a.temperature * a.nb + (xs.map RawRow.temperature).sum := by
  induction xs with
  | nil => intro a; simp [foldValuesFrom]
  | cons x xs ih =>
    intro a
    have hunf : foldValuesFrom a (x :: xs)
        = foldValuesFrom (addValueToAverages a x.temperature x.humidity) xs := rfl
    have hih := ih (addValueToAverages a x.temperature x.humidity)
    have hnb : (addValueToAverages a x.temperature x.humidity).nb = a.nb + 1 := rfl
    rw [hnb] at hih
    push_cast at hih
    have hstep := addValueToAverages_temperature a x.temperature x.humidity
    rw [hunf]
    have harr : ((a.nb : ℚ) + ((xs.length : ℚ) + 1)) = ((a.nb : ℚ) + 1 + (xs.length : ℚ)) := by
      ring
    simp only [List.length_cons]
    push_cast
    rw [harr, hih, hstep]
    simp only [List.map_cons, List.sum_cons]
    ring

/-- The fold keeps `mean * count = sum` for the humidity column. -/
theorem foldValuesFrom_humidity (xs : List RawRow) :
    ∀ a : Averages,
      (foldValuesFrom a xs).humidity * ((a.nb : ℚ) + (xs.length : ℚ))
        = a.humidity * a.nb + (xs.map RawRow.humidity).sum := by
  induction xs with
  | nil => intro a; simp [foldValuesFrom]
  | cons x xs ih =>
    intro a
    have hunf : foldValuesFrom a (x :: xs)
        = foldValuesFrom (addValueToAverages a x.temperature x.humidity) xs := rfl
    have hih := ih (addValueToAverages a x.temperature x.humidity)
    have hnb : (addValueToAverages a x.temperature x.humidity).nb = a.nb + 1 := rfl
    rw [hnb] at hih
    push_cast at hih
    have hstep := addValueToAverages_humidity a x.temperature x.humidity
    rw [hunf]
    have harr : ((a.nb : ℚ) + ((xs.length : ℚ) + 1)) = ((a.nb : ℚ) + 1 + (xs.length : ℚ)) := by
      ring
    simp only [List.length_cons]
    push_cast
    rw [harr, hih, hstep]
    simp only [List.map_cons, List.sum_cons]
    ring

/-- The running minimum column is a `min`-fold over the values seen. -/
theorem foldValuesFrom_min_temperature (xs : List RawRow) :
    ∀ a : Averages, (foldValuesFrom a xs).min_temperature
      = (xs.map RawRow.temperature).foldl min a.min_temperature := by
  induction xs with
  | nil => intro a; rfl
  | cons x xs ih =>
    intro a
    have hunf : foldValuesFrom a (x :: xs)
        = foldValuesFrom (addValueToAverages a x.temperature x.humidity) xs := rfl
    have hstep : (addValueToAverages a x.temperature x.humidity).min_temperature
        = min a.min_temperature x.temperature := by
      simp only [addValueToAverages]
      exact ite_lt_eq_min _ _
    rw [hunf, ih, hstep]
    rfl

theorem foldValuesFrom_max_temperature (xs : List RawRow) :
    ∀ a : Averages, (foldValuesFrom a xs).max_temperature
      = (xs.map RawRow.temperature).foldl max a.max_temperature := by
  induction xs with
  | nil => intro a; rfl
  | cons x xs ih =>
    intro a
    have hunf : foldValuesFrom a (x :: xs)
        = foldValuesFrom (addValueToAverages a x.temperature x.humidity) xs := rfl
    have hstep : (addValueToAverages a x.temperature x.humidity).max_temperature
        = max a.max_temperature x.temperature := by
      simp only [addValueToAverages]
      exact ite_gt_eq_max _ _
    rw [hunf, ih, hstep]
    rfl

theorem foldValuesFrom_min_humidity (xs : List RawRow) :
    ∀ a : Averages, (foldValuesFrom a xs).min_humidity
      = (xs.map RawRow.humidity).foldl min a.min_humidity := by
  induction xs with
  | nil => intro a; rfl
  | cons x xs ih =>
    intro a
    have hunf : foldValuesFrom a (x :: xs)
        = foldValuesFrom (addValueToAverages a x.temperature x.humidity) xs := rfl
    have hstep : (addValueToAverages a x.temperature x.humidity).min_humidity
        = min a.min_humidity x.humidity := by
      simp only [addValueToAverages]
      exact ite_lt_eq_min _ _
    rw [hunf, ih, hstep]
    rfl

theorem foldValuesFrom_max_humidity (xs : List RawRow) :
    ∀ a : Averages, (foldValuesFrom a xs).max_humidity
      = (xs.map RawRow.humidity).foldl max a.max_humidity := by
  induction xs with
  | nil => intro a; rfl
  | cons x xs ih =>
    intro a
    have hunf : foldValuesFrom a (x :: xs)
        = foldValuesFrom (addValueToAverages a x.temperature x.humidity) xs := rfl
    have hstep : (addValueToAverages a x.temperature x.humidity).max_humidity
        = max a.max_humidity x.humidity := by
      simp only [addValueToAverages]
      exact ite_gt_eq_max _ _
    rw [hunf, ih, hstep]
    rfl

theorem foldl_min_le_init (l : List ℚ) : ∀ m : ℚ, l.foldl min m ≤ m := by
  induction l with
  | nil => intro m; simp
  | cons y l ih => intro m; exact le_trans (ih (min m y)) (min_le_left m y)

theorem foldl_min_le_mem (l : List ℚ) : ∀ m x : ℚ, x ∈ l → l.foldl min m ≤ x := by
  induction l with
  | nil => intro m x hx; simp at hx
  | cons y l ih =>
    intro m x hx
    rcases List.mem_cons.mp hx with h | h
    · subst h
      exact le_trans (foldl_min_le_init l (min m x)) (min_le_right m x)
    · exact ih (min m y) x h

theorem foldl_min_mem (l : List ℚ) : ∀ m : ℚ, l.foldl min m = m ∨ l.foldl min m ∈ l := by
  induction l with
  | nil => intro m; left; rfl
  | cons y l ih =>
    intro m
    rcases ih (min m y) with h | h
    · rcases le_total m y with hmy | hmy
      · left
        rw [List.foldl_cons, h, min_eq_left hmy]
      · right
        rw [List.foldl_cons, h, min_eq_right hmy]
        exact List.mem_cons_self y l
    · right
      exact List.mem_cons_of_mem y h

theorem foldl_max_init_le (l : List ℚ) : ∀ m : ℚ, m ≤ l.foldl max m := by
  induction l with
  | nil => intro m; simp
  | cons y l ih => intro m; exact le_trans (le_max_left m y) (ih (max m y))

theorem foldl_max_mem_le (l : List ℚ) : ∀ m x : ℚ, x ∈ l → x ≤ l.foldl max m := by
  induction l with
  | nil => intro m x hx; simp at hx
  | cons y l ih =>
    intro m x hx
    rcases List.mem_cons.mp hx with h | h
    · subst h
      exact le_trans (le_max_right m x) (foldl_max_init_le l (max m x))
    · exact ih (max m y) x h

theorem foldl_max_mem (l : List ℚ) : ∀ m : ℚ, l.foldl max m = m ∨ l.foldl max m ∈ l := by
  induction l with
  | nil => intro m; left; rfl
  | cons y l ih =>
    intro m
    rcases ih (max m y) with h | h
    · rcases le_total m y with hmy | hmy
      · right
        rw [List.foldl_cons, h, max_eq_right hmy]
        exact List.mem_cons_self y l
      · left
        rw [List.foldl_cons, h, max_eq_left hmy]
    · right
      exact List.mem_cons_of_mem y h

/-- Batch characterisation of the reconstruction loop: on a non-empty list
it produces the sample count, `mean * count = sum` for both columns, and the
true min/max of each column. -/
theorem computeAverages_batch (l : List RawRow) (a : Averages)
    (hl : computeAverages l = some a) :
    a.nb = l.length ∧
    a.temperature * (l.length : ℚ) = (l.map RawRow.temperature).sum ∧
    a.humidity * (l.length : ℚ) = (l.map RawRow.humidity).sum ∧
    a.min_temperature ∈ l.map RawRow.temperature ∧
    (∀ x ∈ l.map RawRow.temperature, a.min_temperature ≤ x) ∧
    a.max_temperature ∈ l.map RawRow.temperature ∧
    (∀ x ∈ l.map RawRow.temperature, x ≤ a.max_temperature) ∧
    a.min_humidity ∈ l.map RawRow.humidity ∧
    (∀ x ∈ l.map RawRow.humidity, a.min_humidity ≤ x) ∧
    a.max_humidity ∈ l.map RawRow.humidity ∧
    (∀ x ∈ l.map RawRow.humidity, x ≤ a.max_humidity) := by
  cases l with
  | nil => simp [computeAverages] at hl
  | cons x xs =>
    rw [computeAverages_cons] at hl
    have ha : a = foldValuesFrom (initAverages x.temperature x.humidity) xs :=
      (Option.some.injEq _ _ ▸ hl).symm
    subst ha
    have hinit_nb : (initAverages x.temperature x.humidity).nb = 1 := rfl
    refine ⟨?_, ?_, ?_, ?_, ?_, ?_, ?_, ?_, ?_, ?_, ?_⟩
    · rw [foldValuesFrom_nb, hinit_nb, List.length_cons]
      omega
    · have := foldValuesFrom_temperature xs (initAverages x.temperature x.humidity)
      rw [hinit_nb] at this
      simp only [initAverages] at this
      simp only [List.length_cons, List.map_cons, List.sum_cons]
      push_cast at this ⊢
      calc (foldValuesFrom (initAverages x.temperature x.humidity) xs).temperature
            * ((xs.length : ℚ) + 1)
          = (foldValuesFrom (initAverages x.temperature x.humidity) xs).temperature
            * (1 + (xs.length : ℚ)) := by ring
        _ = x.temperature * 1 + (xs.map RawRow.temperature).sum := this
        _ = x.temperature + (xs.map RawRow.temperature).sum := by ring
    · have := foldValuesFrom_humidity xs (initAverages x.temperature x.humidity)
      rw [hinit_nb] at this
      simp only [initAverages] at this
      simp only [List.length_cons, List.map_cons, List.sum_cons]
      push_cast at this ⊢
      calc (foldValuesFrom (initAverages x.temperature x.humidity) xs).humidity
            * ((xs.length : ℚ) + 1)
          = (foldValuesFrom (initAverages x.temperature x.humidity) xs).humidity
            * (1 + (xs.length : ℚ)) := by ring
        _ = x.humidity * 1 + (xs.map RawRow.humidity).sum := this
        _ = x.humidity + (xs.map RawRow.humidity).sum := by ring
    · rw [foldValuesFrom_min_temperature]
      simp only [initAverages]
      rcases foldl_min_mem (xs.map RawRow.temperature) x.temperature with h | h
      · rw [h]
        simp
      · simp only [List.map_cons]
        exact List.mem_cons_of_mem _ h
    · intro v hv
      rw [foldValuesFrom_min_temperature]
      rcases List.mem_cons.mp (List.map_cons RawRow.temperature x xs ▸ hv) with h | h
      · subst h
        exact foldl_min_le_init _ _
      · exact foldl_min_le_mem _ _ _ h
    · rw [foldValuesFrom_max_temperature]
      simp only [initAverages]
      rcases foldl_max_mem (xs.map RawRow.temperature) x.temperature with h | h
      · rw [h]
        simp
      · simp only [List.map_cons]
        exact List.mem_cons_of_mem _ h
    · intro v hv
      rw [foldValuesFrom_max_temperature]
      rcases List.mem_cons.mp (List.map_cons RawRow.temperature x xs ▸ hv) with h | h
      · subst h
        exact foldl_max_init_le _ _
      · exact foldl_max_mem_le _ _ _ h
    · rw [foldValuesFrom_min_humidity]
      simp only [initAverages]
      rcases foldl_min_mem (xs.map RawRow.humidity) x.humidity with h | h
      · rw [h]
        simp
      · simp only [List.map_cons]
        exact List.mem_cons_of_mem _ h
    · intro v hv
      rw [foldValuesFrom_min_humidity]
      rcases List.mem_cons.mp (List.map_cons RawRow.humidity x xs ▸ hv) with h | h
      · subst h
        exact foldl_min_le_init _ _
      · exact foldl_min_le_mem _ _ _ h
    · rw [foldValuesFrom_max_humidity]
      simp only [initAverages]
      rcases foldl_max_mem (xs.map RawRow.humidity) x.humidity with h | h
      · rw [h]
        simp
      · simp only [List.map_cons]
        exact List.mem_cons_of_mem _ h
    · intro v hv
      rw [foldValuesFrom_max_humidity]
      rcases List.mem_cons.mp (List.map_cons RawRow.humidity x xs ▸ hv) with h | h
      · subst h
        exact foldl_max_init_le _ _
      · exact foldl_max_mem_le _ _ _ h

/-- The statistics produced by the reconstruction loop always satisfy
`min ≤ mean ≤ max` for both columns. -/
theorem computeAverages_bounds (l : List RawRow) (a : Averages)
    (h : computeAverages l = some a) :
    a.min_temperature ≤ a.temperature ∧ a.temperature ≤ a.max_temperature ∧
    a.min_humidity ≤ a.humidity ∧ a.humidity ≤ a.max_humidity := by
  obtain ⟨hnb, htemp, hhum, _, hminT_le, _, hmaxT_le, _, hminH_le, _, hmaxH_le⟩ :=
    computeAverages_batch l a h
  have hne : l ≠ [] := by
    intro he
    subst he
    simp [computeAverages] at h
  have hpos : (0 : ℚ) < (l.length : ℚ) := by
    have := List.length_pos.mpr hne
    exact_mod_cast this
  have key : ∀ (vals : List ℚ) (lo mean hi : ℚ),
      vals.length = l.length → mean * (l.length : ℚ) = vals.sum →
      (∀ x ∈ vals, lo ≤ x) → (∀ x ∈ vals, x ≤ hi) → lo ≤ mean ∧ mean ≤ hi := by
    intro vals lo mean hi hlen hmean hlo hhi
    have h1 : vals.length • lo ≤ vals.sum := List.card_nsmul_le_sum vals lo hlo
    have h2 : vals.sum ≤ vals.length • hi := List.sum_le_card_nsmul vals hi hhi
    rw [hlen, nsmul_eq_mul] at h1 h2
    constructor
    · have : lo * (l.length : ℚ) ≤ mean * (l.length : ℚ) := by
        rw [hmean]
        linarith [h1]
      exact le_of_mul_le_mul_right this hpos
    · have : mean * (l.length : ℚ) ≤ hi * (l.length : ℚ) := by
        rw [hmean]
        linarith [h2]
      exact le_of_mul_le_mul_right this hpos
  have ht := key (l.map RawRow.temperature) a.min_temperature a.temperature a.max_temperature
    (List.length_map l RawRow.temperature) (by rw [htemp]) hminT_le hmaxT_le
  have hh := key (l.map RawRow.humidity) a.min_humidity a.humidity a.max_humidity
    (List.length_map l RawRow.humidity) (by rw [hhum]) hminH_le hmaxH_le
  exact ⟨ht.1, ht.2, hh.1, hh.2⟩

/-- Inserting a list of samples of one bucket into an (initially empty)
aggregate table by successive `addAndUpdateAverages` calls, all with the
same bucket key — the sequential "addSample" path of the spec. -/
def seqAddAgg (k : Nat) (samples : List RawRow) : List AggRow :=
  samples.foldl (fun tb r => addAndUpdateAverages tb k r.temperature r.humidity) []

theorem addAndUpdateAverages_empty (k : Nat) (t h : ℚ) :
    addAndUpdateAverages [] k t h = [rowOfAverages k (initAverages t h)] := rfl

theorem addAndUpdateAverages_singleton (k : Nat) (a : Averages) (t h : ℚ) :
    addAndUpdateAverages [rowOfAverages k a] k t h
      = [rowOfAverages k (addValueToAverages a t h)] := by
  simp [addAndUpdateAverages, dbGetAgg, List.find?, updateAggRow, rowOfAverages,
    addValueToAverages, initAverages]

theorem seqAddAgg_from (k : Nat) (xs : List RawRow) :
    ∀ a : Averages,
      xs.foldl (fun tb r => addAndUpdateAverages tb k r.temperature r.humidity)
          [rowOfAverages k a]
        = [rowOfAverages k (foldValuesFrom a xs)] := by
  induction xs with
  | nil => intro a; rfl
  | cons x xs ih =>
    intro a
    rw [List.foldl_cons, addAndUpdateAverages_singleton]
    exact ih _

/-- The sequential insertion path produces exactly the single row holding
the reconstruction loop's statistics. -/
theorem seqAddAgg_eq (k : Nat) (samples : List RawRow) :
    seqAddAgg k samples
      = Option.elim (computeAverages samples) [] (fun a => [rowOfAverages k a]) := by
  cases samples with
  | nil => rfl
  | cons x xs =>
    rw [computeAverages_cons]
    show (x :: xs).foldl (fun tb r => addAndUpdateAverages tb k r.temperature r.humidity) []
      = _
    rw [List.foldl_cons, addAndUpdateAverages_empty, seqAddAgg_from]
    rfl

/-- C6: for any finite non-empty sequence of samples of one bucket, the
aggregate produced by sequential `addAndUpdateAverages` calls equals the
single batch fold over the same samples — arithmetic mean (`mean * count =
sum`, i.e. `mean = sum / count`) and true min/max — and is the same for
every insertion order. -/
theorem incremental_equals_batch (k : Nat) (L L' : List RawRow)
    (hne : L ≠ []) (hperm : L.Perm L') :
    ∃ a, computeAverages L = some a ∧
      seqAddAgg k L = [rowOfAverages k a] ∧
      seqAddAgg k L' = [rowOfAverages k a] ∧
      a.nb = L.length ∧
      a.temperature = (L.map RawRow.temperature).sum / (L.length : ℚ) ∧
      a.humidity = (L.map RawRow.humidity).sum / (L.length : ℚ) ∧
      a.min_temperature ∈ L.map RawRow.temperature ∧
      (∀ x ∈ L.map RawRow.temperature, a.min_temperature ≤ x) ∧
      a.max_temperature ∈ L.map RawRow.temperature ∧
      (∀ x ∈ L.map RawRow.temperature, x ≤ a.max_temperature) ∧
      a.min_humidity ∈ L.map RawRow.humidity ∧
      (∀ x ∈ L.map RawRow.humidity, a.min_humidity ≤ x) ∧
      a.max_humidity ∈ L.map RawRow.humidity ∧
      (∀ x ∈ L.map RawRow.humidity, x ≤ a.max_humidity) := by
  have hsome : ∃ a, computeAverages L = some a := by
    cases L with
    | nil => exact absurd rfl hne
    | cons x xs => exact ⟨_, computeAverages_cons x xs⟩
  obtain ⟨a, ha⟩ := hsome
  obtain ⟨hnb, htemp, hhum, h1, h2, h3, h4, h5, h6, h7, h8⟩ := computeAverages_batch L a ha
  have hlen : (0 : ℚ) < (L.length : ℚ) := by
    have := List.length_pos.mpr hne
    exact_mod_cast this
  refine ⟨a, ha, ?_, ?_, hnb, ?_, ?_, h1, h2, h3, h4, h5, h6, h7, h8⟩
  · rw [seqAddAgg_eq, ha]
    rfl
  · rw [seqAddAgg_eq, ← computeAverages_perm hperm, ha]
    rfl
  · rw [eq_div_iff (ne_of_gt hlen)]
    exact htemp
  · rw [eq_div_iff (ne_of_gt hlen)]
    exact hhum

/-- Witness for `incremental_equals_batch`: two samples inserted in both
orders. -/
theorem incremental_equals_batch_witness :
    ([(⟨0, 10, 40⟩ : RawRow), ⟨1, 30, 60⟩] ≠ []) ∧
    (∃ a, computeAverages [(⟨0, 10, 40⟩ : RawRow), ⟨1, 30, 60⟩] = some a ∧
      seqAddAgg 0 [(⟨0, 10, 40⟩ : RawRow), ⟨1, 30, 60⟩] = [rowOfAverages 0 a] ∧
      seqAddAgg 0 [(⟨1, 30, 60⟩ : RawRow), ⟨0, 10, 40⟩] = [rowOfAverages 0 a] ∧
      a.nb = ([(⟨0, 10, 40⟩ : RawRow), ⟨1, 30, 60⟩]).length ∧
      a.temperature = (([(⟨0, 10, 40⟩ : RawRow), ⟨1, 30, 60⟩]).map RawRow.temperature).sum
        / (([(⟨0, 10, 40⟩ : RawRow), ⟨1, 30, 60⟩]).length : ℚ) ∧
      a.humidity = (([(⟨0, 10, 40⟩ : RawRow), ⟨1, 30, 60⟩]).map RawRow.humidity).sum
        / (([(⟨0, 10, 40⟩ : RawRow), ⟨1, 30, 60⟩]).length : ℚ) ∧
      a.min_temperature ∈ ([(⟨0, 10, 40⟩ : RawRow), ⟨1, 30, 60⟩]).map RawRow.temperature ∧
      (∀ x ∈ ([(⟨0, 10, 40⟩ : RawRow), ⟨1, 30, 60⟩]).map RawRow.temperature,
        a.min_temperature ≤ x) ∧
      a.max_temperature ∈ ([(⟨0, 10, 40⟩ : RawRow), ⟨1, 30, 60⟩]).map RawRow.temperature ∧
      (∀ x ∈ ([(⟨0, 10, 40⟩ : RawRow), ⟨1, 30, 60⟩]).map RawRow.temperature,
        x ≤ a.max_temperature) ∧
      a.min_humidity ∈ ([(⟨0, 10, 40⟩ : RawRow), ⟨1, 30, 60⟩]).map RawRow.humidity ∧
      (∀ x ∈ ([(⟨0, 10, 40⟩ : RawRow), ⟨1, 30, 60⟩]).map RawRow.humidity,
        a.min_humidity ≤ x) ∧
      a.max_humidity ∈ ([(⟨0, 10, 40⟩ : RawRow), ⟨1, 30, 60⟩]).map RawRow.humidity ∧
      (∀ x ∈ ([(⟨0, 10, 40⟩ : RawRow), ⟨1, 30, 60⟩]).map RawRow.humidity,
        x ≤ a.max_humidity)) :=
  ⟨by simp,
   incremental_equals_batch 0 [⟨0, 10, 40⟩, ⟨1, 30, 60⟩] [⟨1, 30, 60⟩, ⟨0, 10, 40⟩]
     (by simp) (List.Perm.swap (⟨1, 30, 60⟩ : RawRow) (⟨0, 10, 40⟩ : RawRow) [])⟩

theorem bucketStart_le (span ts : Nat) : bucketStartOfSpan span ts ≤ ts :=
  Nat.div_mul_le_self ts span

theorem lt_bucketStart_add (span ts : Nat) (h : span ≠ 0) :
    ts < bucketStartOfSpan span ts + span := by
  have h2 : ts % span < span := Nat.mod_lt ts (Nat.pos_of_ne_zero h)
  calc ts = span * (ts / span) + ts % span := (Nat.div_add_mod ts span).symm
    _ < span * (ts / span) + span := Nat.add_lt_add_left h2 _
    _ = bucketStartOfSpan span ts + span := by rw [bucketStartOfSpan, Nat.mul_comm]

theorem bucketStart_mod (span ts : Nat) : bucketStartOfSpan span ts % span = 0 :=
  Nat.mul_mod_left (ts / span) span

/-- A timestamp lying in an aligned window `[k, k + span)` has bucket start
`k`. -/
theorem bucketStart_eq_of_mem (span k t : Nat) (hk : k % span = 0)
    (h1 : k ≤ t) (h2 : t < k + span) : bucketStartOfSpan span t = k := by
  obtain ⟨q, hq⟩ := Nat.dvd_of_mod_eq_zero hk
  subst hq
  have hle : q * span ≤ t := by
    rw [Nat.mul_comm]
    exact h1
  have hlt : t < (q + 1) * span := by
    rw [Nat.succ_mul, Nat.mul_comm]
    exact h2
  rw [bucketStartOfSpan, Nat.div_eq_of_lt_le hle hlt, Nat.mul_comm]

/-- The raw rows of one bucket window (the filter of the range `SELECT`). -/
def bucketRows (raw : List RawRow) (k span : Nat) : List RawRow :=
  raw.filter (fun r => decide (k ≤ r.timestamp ∧ r.timestamp < k + span))

theorem selectRawRange_perm_bucketRows (raw : List RawRow) (k span : Nat) :
    (selectRawRange raw k (k + span)).Perm (bucketRows raw k span) :=
  List.mergeSort_perm _ _

theorem dbGetAgg_eq_none_iff (table : List AggRow) (k : Nat) :
    dbGetAgg table k = none ↔ ∀ a ∈ table, a.timestamp ≠ k := by
  simp [dbGetAgg, List.find?_eq_none]

theorem dbGetAgg_filter_self (table : List AggRow) (k : Nat) :
    dbGetAgg (table.filter (fun r => !(r.timestamp == k))) k = none := by
  rw [dbGetAgg_eq_none_iff]
  intro a ha
  simpa using List.of_mem_filter ha

theorem dbGetAgg_append (t1 t2 : List AggRow) (k : Nat) :
    dbGetAgg (t1 ++ t2) k = (dbGetAgg t1 k).or (dbGetAgg t2 k) :=
  List.find?_append

theorem dbGetAgg_singleton_self (a : AggRow) (k : Nat) (h : a.timestamp = k) :
    dbGetAgg [a] k = some a := by
  simp [dbGetAgg, List.find?_cons_of_pos, h]

/-- Deleting the rows of one key does not change lookups of other keys. -/
theorem dbGetAgg_filter_other (table : List AggRow) (k k₀ : Nat) (hne : k ≠ k₀) :
    dbGetAgg (table.filter (fun r => !(r.timestamp == k₀))) k = dbGetAgg table k := by
  induction table with
  | nil => rfl
  | cons r rest ih =>
    by_cases hr : r.timestamp = k₀
    · have hdrop : (r :: rest).filter (fun r => !(r.timestamp == k₀))
          = rest.filter (fun r => !(r.timestamp == k₀)) := by
        simp [List.filter_cons, hr]
      have hskip : dbGetAgg (r :: rest) k = dbGetAgg rest k := by
        rw [dbGetAgg, List.find?_cons_of_neg _ (by simp [hr, hne.symm])]
        rfl
      rw [hdrop, hskip, ih]
    · have hkeep : (r :: rest).filter (fun r => !(r.timestamp == k₀))
          = r :: rest.filter (fun r => !(r.timestamp == k₀)) := by
        simp [List.filter_cons, hr]
      rw [hkeep]
      by_cases hk : r.timestamp = k
      · rw [dbGetAgg, List.find?_cons_of_pos _ (by simp [hk]),
          dbGetAgg, List.find?_cons_of_pos _ (by simp [hk])]
      · rw [dbGetAgg, List.find?_cons_of_neg _ (by simp [hk]),
          dbGetAgg, List.find?_cons_of_neg _ (by simp [hk])]
        exact ih

/-- With no duplicate keys, looking up a member row's key finds that row. -/
theorem dbGetAgg_of_mem_nodup (table : List AggRow) (a : AggRow)
    (hnd : (table.map AggRow.timestamp).Nodup) (ha : a ∈ table) :
    dbGetAgg table a.timestamp = some a := by
  induction table with
  | nil => cases ha
  | cons r rest ih =>
    rw [List.map_cons, List.nodup_cons] at hnd
    rcases List.mem_cons.mp ha with h | h
    · subst h
      exact List.find?_cons_of_pos _ (by simp)
    · have hr : r.timestamp ≠ a.timestamp := by
        intro he
        exact hnd.1 (he ▸ List.mem_map_of_mem AggRow.timestamp h)
      rw [dbGetAgg, List.find?_cons_of_neg _ (by simp [hr])]
      exact ih hnd.2 h

/-- With no duplicate keys, a found key has exactly one row. -/
theorem length_filter_key_eq_one (table : List AggRow) (k : Nat) (a : AggRow)
    (hnd : (table.map AggRow.timestamp).Nodup) (hfind : dbGetAgg table k = some a) :
    (table.filter (fun x => x.timestamp == k)).length = 1 := by
  have hmem : a ∈ table := List.mem_of_find?_eq_some hfind
  have hk : a.timestamp = k := by
    have := List.find?_some hfind
    simpa using this
  have hcount : List.count k (table.map AggRow.timestamp) = 1 := by
    have hle := List.nodup_iff_count_le_one.mp hnd k
    have hge : 0 < List.count k (table.map AggRow.timestamp) :=
      List.count_pos_iff.mpr (hk ▸ List.mem_map_of_mem AggRow.timestamp hmem)
    omega
  calc (table.filter (fun x => x.timestamp == k)).length
      = List.countP (fun x => x.timestamp == k) table := (List.countP_eq_length_filter _ _).symm
    _ = List.countP (· == k) (table.map AggRow.timestamp) := by
        rw [List.countP_map]
        rfl
    _ = List.count k (table.map AggRow.timestamp) := rfl
    _ = 1 := hcount

theorem dbGetAgg_seqAddAgg (k : Nat) (samples : List RawRow) :
    dbGetAgg (seqAddAgg k samples) k = (computeAverages samples).map (rowOfAverages k) := by
  rw [seqAddAgg_eq]
  cases computeAverages samples with
  | none => rfl
  | some a => exact dbGetAgg_singleton_self _ _ rfl

/-- The bucket lookup after `deleteAndUpdateAverages`: the bucket's row is
exactly the reconstruction of the bucket's remaining raw rows (and absent
when none remain). -/
theorem deleteAndUpdateAverages_lookup (raw : List RawRow) (table : List AggRow)
    (span ts : Nat) :
    dbGetAgg (deleteAndUpdateAverages raw table span ts) (bucketStartOfSpan span ts)
      = (computeAverages (bucketRows raw (bucketStartOfSpan span ts) span)).map
          (rowOfAverages (bucketStartOfSpan span ts)) := by
  simp only [deleteAndUpdateAverages]
  rw [computeAverages_perm (selectRawRange_perm_bucketRows raw (bucketStartOfSpan span ts) span)]
  cases hc : computeAverages (bucketRows raw (bucketStartOfSpan span ts) span) with
  | none => exact dbGetAgg_filter_self table _
  | some a =>
    rw [dbGetAgg_append, dbGetAgg_filter_self,
      dbGetAgg_singleton_self (rowOfAverages (bucketStartOfSpan span ts) a)
        (bucketStartOfSpan span ts) rfl]
    rfl

theorem bucketRows_deleteRawData (raw : List RawRow) (ts k span : Nat) :
    bucketRows (deleteRawData raw ts) k span
      = (bucketRows raw k span).filter (fun r => !(r.timestamp == ts)) := by
  unfold bucketRows deleteRawData
  rw [List.filter_filter, List.filter_filter]
  apply List.filter_congr
  intro r _
  rw [Bool.and_comm]

/-- Removing one row (present once, by key uniqueness) from a list shortens
it by exactly one. -/
theorem length_filter_ne_of_mem_nodup (r₀ : RawRow) (ts : Nat) (hts : r₀.timestamp = ts) :
    ∀ l : List RawRow, (l.map RawRow.timestamp).Nodup → r₀ ∈ l →
      (l.filter (fun r => !(r.timestamp == ts))).length + 1 = l.length := by
  intro l
  induction l with
  | nil => intro _ hmem; cases hmem
  | cons x l ih =>
    intro hnd hmem
    rw [List.map_cons, List.nodup_cons] at hnd
    rcases List.mem_cons.mp hmem with h | h
    · subst h
      have hall : ∀ r ∈ l, ¬ r.timestamp = ts := by
        intro r hr he
        exact hnd.1 (hts ▸ he ▸ List.mem_map_of_mem RawRow.timestamp hr)
      have hdrop : (r₀ :: l).filter (fun r => !(r.timestamp == ts)) = l := by
        rw [List.filter_cons]
        have : (!(r₀.timestamp == ts)) = false := by simp [hts]
        rw [this]
        simp only [Bool.false_eq_true, if_false]
        exact List.filter_eq_self.mpr (by simpa using hall)
      rw [hdrop]
      rfl
    · have hx : ¬ x.timestamp = ts := by
        intro he
        apply hnd.1
        rw [he, ← hts]
        exact List.mem_map_of_mem RawRow.timestamp h
      have hkeep : (x :: l).filter (fun r => !(r.timestamp == ts))
          = x :: l.filter (fun r => !(r.timestamp == ts)) := by
        simp [List.filter_cons, hx]
      rw [hkeep, List.length_cons, List.length_cons]
      have := ih hnd.2 h
      omega

theorem bucketRows_map_nodup (raw : List RawRow) (k span : Nat)
    (hnd : (raw.map RawRow.timestamp).Nodup) :
    ((bucketRows raw k span).map RawRow.timestamp).Nodup := by
  have hsub : List.Sublist ((bucketRows raw k span).map RawRow.timestamp)
      (raw.map RawRow.timestamp) :=
    List.Sublist.map _ (List.filter_sublist _)
  exact List.Nodup.sublist hsub hnd

theorem mem_bucketRows_self (raw : List RawRow) (r₀ : RawRow) (span : Nat)
    (hspan : span ≠ 0) (hmem : r₀ ∈ raw) :
    r₀ ∈ bucketRows raw (bucketStartOfSpan span r₀.timestamp) span := by
  apply List.mem_filter.mpr
  refine ⟨hmem, ?_⟩
  simp only [decide_eq_true_eq]
  exact ⟨bucketStart_le span r₀.timestamp, lt_bucketStart_add span r₀.timestamp hspan⟩

/-- C4: `deleteWeatherData` removes the raw row, then rebuilds the hour and
day buckets of the deleted timestamp: each bucket's aggregate row is exactly
the fold of the remaining raw samples of `[bucketStart, bucketStart + span)`
by the same incremental algorithm — identical to the row obtained by
inserting only the remaining samples from scratch — the remaining samples
number one fewer than before, and an empty bucket keeps no aggregate row. -/
theorem delete_reconstructs (s : Store) (ts : Nat) (r₀ : RawRow)
    (hnd : (s.data_raw.map RawRow.timestamp).Nodup)
    (hmem : r₀ ∈ s.data_raw) (hts : r₀.timestamp = ts) :
    ((deleteWeatherData s ts).1.data_raw = deleteRawData s.data_raw ts) ∧
    (dbGetAgg (deleteWeatherData s ts).1.data_per_hour (hourBucketKey ts)
      = (computeAverages
          (bucketRows (deleteRawData s.data_raw ts) (hourBucketKey ts) 3600)).map
            (rowOfAverages (hourBucketKey ts))) ∧
    (dbGetAgg (deleteWeatherData s ts).1.data_per_hour (hourBucketKey ts)
      = dbGetAgg (seqAddAgg (hourBucketKey ts)
          (bucketRows (deleteRawData s.data_raw ts) (hourBucketKey ts) 3600))
          (hourBucketKey ts)) ∧
    ((bucketRows (deleteRawData s.data_raw ts) (hourBucketKey ts) 3600).length + 1
      = (bucketRows s.data_raw (hourBucketKey ts) 3600).length) ∧
    (bucketRows (deleteRawData s.data_raw ts) (hourBucketKey ts) 3600 = [] →
      dbGetAgg (deleteWeatherData s ts).1.data_per_hour (hourBucketKey ts) = none) ∧
    (dbGetAgg (deleteWeatherData s ts).1.data_per_day (dayBucketKey ts)
      = (computeAverages
          (bucketRows (deleteRawData s.data_raw ts) (dayBucketKey ts) 86400)).map
            (rowOfAverages (dayBucketKey ts))) ∧
    (dbGetAgg (deleteWeatherData s ts).1.data_per_day (dayBucketKey ts)
      = dbGetAgg (seqAddAgg (dayBucketKey ts)
          (bucketRows (deleteRawData s.data_raw ts) (dayBucketKey ts) 86400))
          (dayBucketKey ts)) ∧
    ((bucketRows (deleteRawData s.data_raw ts) (dayBucketKey ts) 86400).length + 1
      = (bucketRows s.data_raw (dayBucketKey ts) 86400).length) ∧
    (bucketRows (deleteRawData s.data_raw ts) (dayBucketKey ts) 86400 = [] →
      dbGetAgg (deleteWeatherData s ts).1.data_per_day (dayBucketKey ts) = none) := by
  have hhour : (deleteWeatherData s ts).1.data_per_hour
      = deleteAndUpdateAverages (deleteRawData s.data_raw ts) s.data_per_hour 3600 ts := rfl
  have hday : (deleteWeatherData s ts).1.data_per_day
      = deleteAndUpdateAverages (deleteRawData s.data_raw ts) s.data_per_day 86400 ts := rfl
  have hlookH : dbGetAgg
        (deleteAndUpdateAverages (deleteRawData s.data_raw ts) s.data_per_hour 3600 ts)
        (hourBucketKey ts)
      = (computeAverages
          (bucketRows (deleteRawData s.data_raw ts) (hourBucketKey ts) 3600)).map
            (rowOfAverages (hourBucketKey ts)) :=
    deleteAndUpdateAverages_lookup (deleteRawData s.data_raw ts) s.data_per_hour 3600 ts
  have hlookD : dbGetAgg
        (deleteAndUpdateAverages (deleteRawData s.data_raw ts) s.data_per_day 86400 ts)
        (dayBucketKey ts)
      = (computeAverages
          (bucketRows (deleteRawData s.data_raw ts) (dayBucketKey ts) 86400)).map
            (rowOfAverages (dayBucketKey ts)) :=
    deleteAndUpdateAverages_lookup (deleteRawData s.data_raw ts) s.data_per_day 86400 ts
  have hcount : ∀ span : Nat, span ≠ 0 →
      (bucketRows (deleteRawData s.data_raw ts) (bucketStartOfSpan span ts) span).length + 1
        = (bucketRows s.data_raw (bucketStartOfSpan span ts) span).length := by
    intro span hspan
    rw [bucketRows_deleteRawData]
    exact length_filter_ne_of_mem_nodup r₀ ts hts _
      (bucketRows_map_nodup s.data_raw _ span hnd)
      (hts ▸ mem_bucketRows_self s.data_raw r₀ span hspan hmem)
  refine ⟨rfl, ?_, ?_, ?_, ?_, ?_, ?_, ?_, ?_⟩
  · rw [hhour]
    exact hlookH
  · rw [hhour, hlookH, dbGetAgg_seqAddAgg]
  · exact hcount 3600 (by norm_num)
  · intro hempty
    rw [hhour, hlookH, hempty]
    rfl
  · rw [hday]
    exact hlookD
  · rw [hday, hlookD, dbGetAgg_seqAddAgg]
  · exact hcount 86400 (by norm_num)
  · intro hempty
    rw [hday, hlookD, hempty]
    rfl

/-- Witness for `delete_reconstructs`: two samples in one hour bucket,
deleting the second. -/
theorem delete_reconstructs_witness :
    ((deleteWeatherData ⟨[⟨0, 10, 40⟩, ⟨10, 30, 60⟩],
        [⟨0, 20, 50, 10, 30, 40, 60, 2⟩], [⟨0, 20, 50, 10, 30, 40, 60, 2⟩]⟩ 10).1.data_raw
      = deleteRawData [⟨0, 10, 40⟩, ⟨10, 30, 60⟩] 10) ∧
    ((bucketRows (deleteRawData [(⟨0, 10, 40⟩ : RawRow), ⟨10, 30, 60⟩] 10)
        (hourBucketKey 10) 3600).length + 1
      = (bucketRows [(⟨0, 10, 40⟩ : RawRow), ⟨10, 30, 60⟩] (hourBucketKey 10) 3600).length) := by
  have h := delete_reconstructs
    ⟨[⟨0, 10, 40⟩, ⟨10, 30, 60⟩], [⟨0, 20, 50, 10, 30, 40, 60, 2⟩],
      [⟨0, 20, 50, 10, 30, 40, 60, 2⟩]⟩ 10 ⟨10, 30, 60⟩
    (by simp) (List.mem_cons_of_mem _ (List.mem_cons_self _ _)) rfl
  exact ⟨h.1, h.2.2.2.1⟩

theorem dbGetRaw_eq_none_iff (raw : List RawRow) (ts : Nat) :
    dbGetRaw raw ts = none ↔ ∀ r ∈ raw, r.timestamp ≠ ts := by
  simp [dbGetRaw, List.find?_eq_none]

theorem dbGetAgg_updateAggRow_other (table : List AggRow) (k₀ k : Nat) (newRow : AggRow)
    (hne : k ≠ k₀) (hts : newRow.timestamp = k₀) :
    dbGetAgg (updateAggRow table k₀ newRow) k = dbGetAgg table k := by
  induction table with
  | nil => rfl
  | cons r rest ih =>
    have hstep : updateAggRow (r :: rest) k₀ newRow
        = (if r.timestamp == k₀ then newRow else r) :: updateAggRow rest k₀ newRow := rfl
    rw [hstep]
    by_cases hr : r.timestamp = k₀
    · simp only [hr, beq_self_eq_true, if_true]
      rw [dbGetAgg, List.find?_cons_of_neg _ (by simp [hts]; exact Ne.symm hne),
        dbGetAgg, List.find?_cons_of_neg _ (by simp [hr]; exact Ne.symm hne)]
      exact ih
    · simp only [beq_iff_eq, hr, if_false]
      by_cases hk : r.timestamp = k
      · rw [dbGetAgg, List.find?_cons_of_pos _ (by simp [hk]),
          dbGetAgg, List.find?_cons_of_pos _ (by simp [hk])]
      · rw [dbGetAgg, List.find?_cons_of_neg _ (by simp [hk]),
          dbGetAgg, List.find?_cons_of_neg _ (by simp [hk])]
        exact ih

theorem updateAggRow_map_timestamp (table : List AggRow) (k₀ : Nat) (newRow : AggRow)
    (hts : newRow.timestamp = k₀) :
    (updateAggRow table k₀ newRow).map AggRow.timestamp = table.map AggRow.timestamp := by
  unfold updateAggRow
  rw [List.map_map]
  apply List.map_congr_left
  intro a _
  by_cases h : a.timestamp = k₀ <;> simp [Function.comp, h, hts]

theorem mem_updateAggRow (table : List AggRow) (k₀ : Nat) (newRow a : AggRow)
    (ha : a ∈ updateAggRow table k₀ newRow) : a = newRow ∨ a ∈ table := by
  unfold updateAggRow at ha
  obtain ⟨b, hb, he⟩ := List.mem_map.mp ha
  by_cases h : b.timestamp = k₀
  · left
    rw [← he]
    simp [h]
  · right
    rw [← he]
    simpa [h] using hb

theorem addAndUpdateAverages_lookup_self_none (table : List AggRow) (k₀ : Nat) (t h : ℚ)
    (hnone : dbGetAgg table k₀ = none) :
    dbGetAgg (addAndUpdateAverages table k₀ t h) k₀
      = some (rowOfAverages k₀ (initAverages t h)) := by
  simp only [addAndUpdateAverages, hnone]
  rw [dbGetAgg_append, hnone]
  exact dbGetAgg_singleton_self _ _ rfl

theorem addAndUpdateAverages_lookup_self_some (table : List AggRow) (k₀ : Nat) (t h : ℚ)
    (row : AggRow) (hrow : dbGetAgg table k₀ = some row) :
    dbGetAgg (addAndUpdateAverages table k₀ t h) k₀
      = some (rowOfAverages k₀ (addValueToAverages (statsOfRow row) t h)) := by
  simp only [addAndUpdateAverages, hrow]
  exact dbGetAgg_updateAggRow_self table k₀ _ (by simp [hrow]) rfl

theorem addAndUpdateAverages_lookup_other (table : List AggRow) (k₀ k : Nat) (t h : ℚ)
    (hne : k ≠ k₀) :
    dbGetAgg (addAndUpdateAverages table k₀ t h) k = dbGetAgg table k := by
  cases hc : dbGetAgg table k₀ with
  | none =>
    simp only [addAndUpdateAverages, hc]
    rw [dbGetAgg_append]
    have hlast : dbGetAgg [(⟨k₀, t, h, t, t, h, h, 1⟩ : AggRow)] k = none := by
      rw [dbGetAgg_eq_none_iff]
      intro a ha
      rw [List.mem_singleton] at ha
      subst ha
      exact hne.symm
    rw [hlast, Option.or_none]
  | some row =>
    simp only [addAndUpdateAverages, hc]
    exact dbGetAgg_updateAggRow_other table k₀ k _ hne rfl

theorem bucketRows_append_same (raw : List RawRow) (r : RawRow) (span : Nat)
    (hspan : span ≠ 0) :
    bucketRows (raw ++ [r]) (bucketStartOfSpan span r.timestamp) span
      = bucketRows raw (bucketStartOfSpan span r.timestamp) span ++ [r] := by
  unfold bucketRows
  rw [List.filter_append]
  congr 1
  rw [List.filter_cons]
  simp only [decide_eq_true_eq]
  rw [if_pos ⟨bucketStart_le span r.timestamp, lt_bucketStart_add span r.timestamp hspan⟩,
    List.filter_nil]

theorem bucketRows_append_other (raw : List RawRow) (r : RawRow) (span k : Nat)
    (hk : k % span = 0) (hne : bucketStartOfSpan span r.timestamp ≠ k) :
    bucketRows (raw ++ [r]) k span = bucketRows raw k span := by
  unfold bucketRows
  rw [List.filter_append]
  rw [List.filter_cons]
  simp only [decide_eq_true_eq]
  rw [if_neg ?hcond, List.filter_nil, List.append_nil]
  case hcond =>
    rintro ⟨h1, h2⟩
    exact hne (bucketStart_eq_of_mem span k r.timestamp hk h1 h2)

/-- The aggregate table is exactly the rollup of the raw table for one span:
every row sits on a bucket boundary, keys are unique, and looking up any
aligned key yields precisely the fold of that bucket's raw rows. -/
def TableExact (raw : List RawRow) (span : Nat) (table : List AggRow) : Prop :=
  (∀ a ∈ table, a.timestamp % span = 0) ∧
  (table.map AggRow.timestamp).Nodup ∧
  (∀ k : Nat, k % span = 0 →
    dbGetAgg table k = (computeAverages (bucketRows raw k span)).map (rowOfAverages k))

/-- The whole-store invariant: unique raw keys and both rollup tables
exact. -/
def StoreExact (s : Store) : Prop :=
  (s.data_raw.map RawRow.timestamp).Nodup ∧
  TableExact s.data_raw 3600 s.data_per_hour ∧
  TableExact s.data_raw 86400 s.data_per_day

theorem StoreExact_empty : StoreExact Store.empty := by
  refine ⟨List.nodup_nil, ⟨?_, ?_, ?_⟩, ⟨?_, ?_, ?_⟩⟩
  · exact fun a ha => absurd ha (List.not_mem_nil a)
  · exact List.nodup_nil
  · intro k _
    rfl
  · exact fun a ha => absurd ha (List.not_mem_nil a)
  · exact List.nodup_nil
  · intro k _
    rfl

/-- `addAndUpdateAverages` at the bucket key of a newly appended raw sample
keeps the rollup table exact. -/
theorem TableExact_add (raw : List RawRow) (span : Nat) (table : List AggRow)
    (ts : Nat) (t h : ℚ) (hspan : span ≠ 0) (hex : TableExact raw span table) :
    TableExact (raw ++ [⟨ts, t, h⟩]) span
      (addAndUpdateAverages table (bucketStartOfSpan span ts) t h) := by
  obtain ⟨halign, hnd, hlook⟩ := hex
  have hk₀mod : bucketStartOfSpan span ts % span = 0 := bucketStart_mod span ts
  refine ⟨?_, ?_, ?_⟩
  · intro a ha
    cases hc : dbGetAgg table (bucketStartOfSpan span ts) with
    | none =>
      simp only [addAndUpdateAverages, hc] at ha
      rcases List.mem_append.mp ha with hmem | hmem
      · exact halign a hmem
      · rw [List.mem_singleton] at hmem
        subst hmem
        exact hk₀mod
    | some row =>
      simp only [addAndUpdateAverages, hc] at ha
      rcases mem_updateAggRow _ _ _ _ ha with he | hmem
      · subst he
        exact hk₀mod
      · exact halign a hmem
  · cases hc : dbGetAgg table (bucketStartOfSpan span ts) with
    | none =>
      simp only [addAndUpdateAverages, hc]
      rw [List.map_append]
      have hnotmem : bucketStartOfSpan span ts ∉ table.map AggRow.timestamp := by
        intro hm
        obtain ⟨a, hamem, hats⟩ := List.mem_map.mp hm
        exact ((dbGetAgg_eq_none_iff table _).mp hc a hamem) hats
      simp [List.nodup_append, hnd, hnotmem]
    | some row =>
      simp only [addAndUpdateAverages, hc]
      exact (updateAggRow_map_timestamp table (bucketStartOfSpan span ts)
        (rowOfAverages (bucketStartOfSpan span ts)
          (addValueToAverages (statsOfRow row) t h)) rfl).symm ▸ hnd
  · intro k hkmod
    by_cases hkk : k = bucketStartOfSpan span ts
    · subst hkk
      have hbr : bucketRows (raw ++ [⟨ts, t, h⟩]) (bucketStartOfSpan span ts) span
          = bucketRows raw (bucketStartOfSpan span ts) span ++ [⟨ts, t, h⟩] :=
        bucketRows_append_same raw ⟨ts, t, h⟩ span hspan
      rw [hbr, computeAverages_append_singleton]
      cases hc : dbGetAgg table (bucketStartOfSpan span ts) with
      | none =>
        have hnone : computeAverages (bucketRows raw (bucketStartOfSpan span ts) span)
            = none := by
          have hl := hlook (bucketStartOfSpan span ts) hk₀mod
          rw [hc] at hl
          exact Option.map_eq_none'.mp hl.symm
        rw [hnone, addAndUpdateAverages_lookup_self_none table (bucketStartOfSpan span ts) t h hc]
        rfl
      | some row =>
        have hsome : computeAverages (bucketRows raw (bucketStartOfSpan span ts) span)
            = some (statsOfRow row) := by
          have hl := hlook (bucketStartOfSpan span ts) hk₀mod
          rw [hc] at hl
          cases hcomp : computeAverages (bucketRows raw (bucketStartOfSpan span ts) span) with
          | none =>
            rw [hcomp] at hl
            exact absurd hl (by simp)
          | some a =>
            rw [hcomp] at hl
            simp only [Option.map_some', Option.some.injEq] at hl
            rw [hl]
            rfl
        rw [hsome,
          addAndUpdateAverages_lookup_self_some table (bucketStartOfSpan span ts) t h row hc]
        rfl
    · have hbr : bucketRows (raw ++ [⟨ts, t, h⟩]) k span = bucketRows raw k span :=
        bucketRows_append_other raw ⟨ts, t, h⟩ span k hkmod (fun he => hkk he.symm)
      rw [hbr, addAndUpdateAverages_lookup_other table _ k t h hkk]
      exact hlook k hkmod

theorem deleteAndUpdateAverages_lookup_other (raw : List RawRow) (table : List AggRow)
    (span ts k : Nat) (hne : k ≠ bucketStartOfSpan span ts) :
    dbGetAgg (deleteAndUpdateAverages raw table span ts) k = dbGetAgg table k := by
  simp only [deleteAndUpdateAverages]
  cases computeAverages (selectRawRange raw (bucketStartOfSpan span ts)
      (bucketStartOfSpan span ts + span)) with
  | none => exact dbGetAgg_filter_other table k _ hne
  | some a =>
    rw [dbGetAgg_append, dbGetAgg_filter_other table k _ hne]
    have hlast : dbGetAgg [rowOfAverages (bucketStartOfSpan span ts) a] k = none := by
      rw [dbGetAgg_eq_none_iff]
      intro b hb
      rw [List.mem_singleton] at hb
      subst hb
      exact fun he => hne he.symm
    rw [hlast, Option.or_none]

theorem mem_deleteAndUpdateAverages (raw : List RawRow) (table : List AggRow)
    (span ts : Nat) (a : AggRow)
    (ha : a ∈ deleteAndUpdateAverages raw table span ts) :
    a ∈ table ∨ a.timestamp = bucketStartOfSpan span ts := by
  simp only [deleteAndUpdateAverages] at ha
  cases hcomp : computeAverages (selectRawRange raw (bucketStartOfSpan span ts)
      (bucketStartOfSpan span ts + span)) with
  | none =>
    rw [hcomp] at ha
    exact Or.inl (List.mem_of_mem_filter ha)
  | some av =>
    rw [hcomp] at ha
    rcases List.mem_append.mp ha with hmem | hmem
    · exact Or.inl (List.mem_of_mem_filter hmem)
    · rw [List.mem_singleton] at hmem
      subst hmem
      exact Or.inr rfl

theorem deleteAndUpdateAverages_keys_nodup (raw : List RawRow) (table : List AggRow)
    (span ts : Nat) (hnd : (table.map AggRow.timestamp).Nodup) :
    ((deleteAndUpdateAverages raw table span ts).map AggRow.timestamp).Nodup := by
  have hnd1 : ((table.filter
      (fun r => !(r.timestamp == bucketStartOfSpan span ts))).map AggRow.timestamp).Nodup := by
    have hsub : List.Sublist
        ((table.filter (fun r => !(r.timestamp == bucketStartOfSpan span ts))).map
          AggRow.timestamp)
        (table.map AggRow.timestamp) :=
      List.Sublist.map _ (List.filter_sublist _)
    exact List.Nodup.sublist hsub hnd
  simp only [deleteAndUpdateAverages]
  cases computeAverages (selectRawRange raw (bucketStartOfSpan span ts)
      (bucketStartOfSpan span ts + span)) with
  | none => exact hnd1
  | some a =>
    rw [List.map_append]
    have hnotmem : bucketStartOfSpan span ts ∉
        (table.filter (fun r => !(r.timestamp == bucketStartOfSpan span ts))).map
          AggRow.timestamp := by
      intro hm
      obtain ⟨b, hbmem, hbts⟩ := List.mem_map.mp hm
      have := List.of_mem_filter hbmem
      simp only [Bool.not_eq_eq_eq_not, Bool.not_true, beq_eq_false_iff_ne, ne_eq] at this
      exact this hbts
    simp [List.nodup_append, hnd1, hnotmem, rowOfAverages]

/-- Raw rows removed by `deleteRawData` only ever belonged to the deleted
timestamp's own bucket; every other aligned bucket keeps its rows. -/
theorem bucketRows_deleteRawData_other (raw : List RawRow) (ts span k : Nat)
    (hk : k % span = 0) (hne : k ≠ bucketStartOfSpan span ts) :
    bucketRows (deleteRawData raw ts) k span = bucketRows raw k span := by
  rw [bucketRows_deleteRawData]
  apply List.filter_eq_self.mpr
  intro r hr
  have hb := List.of_mem_filter hr
  simp only [decide_eq_true_eq] at hb
  have hbk : bucketStartOfSpan span r.timestamp = k :=
    bucketStart_eq_of_mem span k r.timestamp hk hb.1 hb.2
  simp only [Bool.not_eq_eq_eq_not, Bool.not_true, beq_eq_false_iff_ne, ne_eq]
  intro he
  exact hne (by rw [← hbk, he])

/-- `deleteAndUpdateAverages` after the raw delete keeps the rollup table
exact. -/
theorem TableExact_delete (raw : List RawRow) (span : Nat) (table : List AggRow)
    (ts : Nat) (hex : TableExact raw span table) :
    TableExact (deleteRawData raw ts) span
      (deleteAndUpdateAverages (deleteRawData raw ts) table span ts) := by
  obtain ⟨halign, hnd, hlook⟩ := hex
  refine ⟨?_, deleteAndUpdateAverages_keys_nodup _ _ _ _ hnd, ?_⟩
  · intro a ha
    rcases mem_deleteAndUpdateAverages _ _ _ _ a ha with hmem | he
    · exact halign a hmem
    · rw [he]
      exact bucketStart_mod span ts
  · intro k hkmod
    by_cases hkk : k = bucketStartOfSpan span ts
    · subst hkk
      exact deleteAndUpdateAverages_lookup (deleteRawData raw ts) table span ts
    · rw [deleteAndUpdateAverages_lookup_other _ _ _ _ _ hkk,
        bucketRows_deleteRawData_other raw ts span k hkmod hkk]
      exact hlook k hkmod

theorem StoreExact_save (s : Store) (ts : Nat) (t h : ℚ)
    (hex : StoreExact s) (hfresh : dbGetRaw s.data_raw ts = none) :
    StoreExact (saveWeatherData s ts ts ts t h noFaults).store := by
  obtain ⟨hnd, hh, hd⟩ := hex
  have hraw : (saveWeatherData s ts ts ts t h noFaults).store.data_raw
      = s.data_raw ++ [⟨ts, t, h⟩] := by
    simp [saveWeatherData, insertRawData, hfresh, noFaults]
  have hhour : (saveWeatherData s ts ts ts t h noFaults).store.data_per_hour
      = addAndUpdateAverages s.data_per_hour (hourBucketKey ts) t h := by
    simp [saveWeatherData, insertRawData, hfresh, noFaults]
  have hday : (saveWeatherData s ts ts ts t h noFaults).store.data_per_day
      = addAndUpdateAverages s.data_per_day (dayBucketKey ts) t h := by
    simp [saveWeatherData, insertRawData, hfresh, noFaults]
  refine ⟨?_, ?_, ?_⟩
  · rw [hraw, List.map_append]
    have hnotmem : ts ∉ s.data_raw.map RawRow.timestamp := by
      intro hm
      obtain ⟨r, hrmem, hrts⟩ := List.mem_map.mp hm
      exact ((dbGetRaw_eq_none_iff s.data_raw ts).mp hfresh r hrmem) hrts
    simp [List.nodup_append, hnd, hnotmem]
  · rw [hraw, hhour]
    exact TableExact_add s.data_raw 3600 s.data_per_hour ts t h (by norm_num) hh
  · rw [hraw, hday]
    exact TableExact_add s.data_raw 86400 s.data_per_day ts t h (by norm_num) hd

theorem StoreExact_del (s : Store) (ts : Nat) (hex : StoreExact s) :
    StoreExact (deleteWeatherData s ts).1 := by
  obtain ⟨hnd, hh, hd⟩ := hex
  refine ⟨?_, ?_, ?_⟩
  · have hsub : List.Sublist ((deleteRawData s.data_raw ts).map RawRow.timestamp)
        (s.data_raw.map RawRow.timestamp) :=
      List.Sublist.map _ (List.filter_sublist _)
    exact List.Nodup.sublist hsub hnd
  · exact TableExact_delete s.data_raw 3600 s.data_per_hour ts hh
  · exact TableExact_delete s.data_raw 86400 s.data_per_day ts hd

theorem StoreExact_applyOps :
    ∀ (ops : List WsOp) (s : Store), StoreExact s → OpsFresh s ops →
      StoreExact (applyOps s ops) := by
  intro ops
  induction ops with
  | nil => exact fun s hex _ => hex
  | cons op rest ih =>
    intro s hex hfr
    obtain ⟨hok, hrest⟩ := hfr
    refine ih (applyOp s op) ?_ hrest
    cases op with
    | save ts t h => exact StoreExact_save s ts t h hex hok
    | del ts => exact StoreExact_del s ts hex

/-- The claim-level consequences of `StoreExact`. -/
theorem StoreExact_invariants (s : Store) (hex : StoreExact s) :
    (∀ r ∈ s.data_raw,
      (∃ a, dbGetAgg s.data_per_hour (hourBucketKey r.timestamp) = some a ∧
        (s.data_per_hour.filter
          (fun x => x.timestamp == hourBucketKey r.timestamp)).length = 1 ∧
        a.number_values = (bucketRows s.data_raw (hourBucketKey r.timestamp) 3600).length ∧
        computeAverages (bucketRows s.data_raw (hourBucketKey r.timestamp) 3600)
          = some (statsOfRow a)) ∧
      (∃ a, dbGetAgg s.data_per_day (dayBucketKey r.timestamp) = some a ∧
        (s.data_per_day.filter
          (fun x => x.timestamp == dayBucketKey r.timestamp)).length = 1 ∧
        a.number_values = (bucketRows s.data_raw (dayBucketKey r.timestamp) 86400).length ∧
        computeAverages (bucketRows s.data_raw (dayBucketKey r.timestamp) 86400)
          = some (statsOfRow a))) ∧
    (∀ a ∈ s.data_per_hour, 1 ≤ a.number_values →
      a.min_temperature ≤ a.temperature ∧ a.temperature ≤ a.max_temperature ∧
      a.min_humidity ≤ a.humidity ∧ a.humidity ≤ a.max_humidity) ∧
    (∀ a ∈ s.data_per_day, 1 ≤ a.number_values →
      a.min_temperature ≤ a.temperature ∧ a.temperature ≤ a.max_temperature ∧
      a.min_humidity ≤ a.humidity ∧ a.humidity ≤ a.max_humidity) := by
  obtain ⟨hndraw, ⟨halignH, hndH, hlookH⟩, ⟨halignD, hndD, hlookD⟩⟩ := hex
  have hbucket : ∀ (span : Nat) (table : List AggRow), span ≠ 0 →
      (∀ a ∈ table, a.timestamp % span = 0) →
      (table.map AggRow.timestamp).Nodup →
      (∀ k : Nat, k % span = 0 →
        dbGetAgg table k
          = (computeAverages (bucketRows s.data_raw k span)).map (rowOfAverages k)) →
      ∀ r ∈ s.data_raw,
        ∃ a, dbGetAgg table (bucketStartOfSpan span r.timestamp) = some a ∧
          (table.filter
            (fun x => x.timestamp == bucketStartOfSpan span r.timestamp)).length = 1 ∧
          a.number_values
            = (bucketRows s.data_raw (bucketStartOfSpan span r.timestamp) span).length ∧
          computeAverages (bucketRows s.data_raw (bucketStartOfSpan span r.timestamp) span)
            = some (statsOfRow a) := by
    intro span table hspan _ hndT hlookT r hr
    have hmem : r ∈ bucketRows s.data_raw (bucketStartOfSpan span r.timestamp) span :=
      mem_bucketRows_self s.data_raw r span hspan hr
    have hne : bucketRows s.data_raw (bucketStartOfSpan span r.timestamp) span ≠ [] :=
      List.ne_nil_of_mem hmem
    cases hcomp : computeAverages
        (bucketRows s.data_raw (bucketStartOfSpan span r.timestamp) span) with
    | none => exact absurd ((computeAverages_eq_none_iff _).mp hcomp) hne
    | some a' =>
      have hfind : dbGetAgg table (bucketStartOfSpan span r.timestamp)
          = some (rowOfAverages (bucketStartOfSpan span r.timestamp) a') := by
        rw [hlookT _ (bucketStart_mod span r.timestamp), hcomp]
        rfl
      refine ⟨rowOfAverages (bucketStartOfSpan span r.timestamp) a', hfind,
        length_filter_key_eq_one table _ _ hndT hfind, ?_, ?_⟩
      · have := (computeAverages_batch _ a' hcomp).1
        exact this
      · rfl
  have hbounds : ∀ (table : List AggRow) (span : Nat),
      (∀ a ∈ table, a.timestamp % span = 0) →
      (table.map AggRow.timestamp).Nodup →
      (∀ k : Nat, k % span = 0 →
        dbGetAgg table k
          = (computeAverages (bucketRows s.data_raw k span)).map (rowOfAverages k)) →
      ∀ a ∈ table, 1 ≤ a.number_values →
        a.min_temperature ≤ a.temperature ∧ a.temperature ≤ a.max_temperature ∧
        a.min_humidity ≤ a.humidity ∧ a.humidity ≤ a.max_humidity := by
    intro table span halignT hndT hlookT a ha _
    have hfind : dbGetAgg table a.timestamp = some a := dbGetAgg_of_mem_nodup table a hndT ha
    have hl := hlookT a.timestamp (halignT a ha)
    rw [hfind] at hl
    cases hcomp : computeAverages (bucketRows s.data_raw a.timestamp span) with
    | none =>
      rw [hcomp] at hl
      exact absurd hl (by simp)
    | some a' =>
      rw [hcomp] at hl
      simp only [Option.map_some', Option.some.injEq] at hl
      have hb := computeAverages_bounds _ _ hcomp
      rw [hl]
      exact hb
  refine ⟨fun r hr => ⟨hbucket 3600 s.data_per_hour (by norm_num) halignH hndH hlookH r hr,
      hbucket 86400 s.data_per_day (by norm_num) halignD hndD hlookD r hr⟩,
    hbounds s.data_per_hour 3600 halignH hndH hlookH,
    hbounds s.data_per_day 86400 halignD hndD hlookD⟩

/-- C5 amended: after any sequence of `saveWeatherData` (with explicit,
currently-free timestamps — i.e. saves whose raw `INSERT` succeeds) and
`deleteWeatherData` operations from the empty store, every raw sample has
exactly one hour-table row and one day-table row at its bucket keys, their
`number_values` equal the raw count of the bucket, their statistics are
exactly the fold of the bucket's samples, and every aggregate row satisfies
`min ≤ mean ≤ max` for both columns. -/
theorem store_invariant_after_fresh_ops (ops : List WsOp)
    (hfr : OpsFresh Store.empty ops) :
    (∀ r ∈ (applyOps Store.empty ops).data_raw,
      (∃ a, dbGetAgg (applyOps Store.empty ops).data_per_hour
          (hourBucketKey r.timestamp) = some a ∧
        ((applyOps Store.empty ops).data_per_hour.filter
          (fun x => x.timestamp == hourBucketKey r.timestamp)).length = 1 ∧
        a.number_values
          = (bucketRows (applyOps Store.empty ops).data_raw
              (hourBucketKey r.timestamp) 3600).length ∧
        computeAverages (bucketRows (applyOps Store.empty ops).data_raw
            (hourBucketKey r.timestamp) 3600) = some (statsOfRow a)) ∧
      (∃ a, dbGetAgg (applyOps Store.empty ops).data_per_day
          (dayBucketKey r.timestamp) = some a ∧
        ((applyOps Store.empty ops).data_per_day.filter
          (fun x => x.timestamp == dayBucketKey r.timestamp)).length = 1 ∧
        a.number_values
          = (bucketRows (applyOps Store.empty ops).data_raw
              (dayBucketKey r.timestamp) 86400).length ∧
        computeAverages (bucketRows (applyOps Store.empty ops).data_raw
            (dayBucketKey r.timestamp) 86400) = some (statsOfRow a))) ∧
    (∀ a ∈ (applyOps Store.empty ops).data_per_hour, 1 ≤ a.number_values →
      a.min_temperature ≤ a.temperature ∧ a.temperature ≤ a.max_temperature ∧
      a.min_humidity ≤ a.humidity ∧ a.humidity ≤ a.max_humidity) ∧
    (∀ a ∈ (applyOps Store.empty ops).data_per_day, 1 ≤ a.number_values →
      a.min_temperature ≤ a.temperature ∧ a.temperature ≤ a.max_temperature ∧
      a.min_humidity ≤ a.humidity ∧ a.humidity ≤ a.max_humidity) :=
  StoreExact_invariants (applyOps Store.empty ops)
    (StoreExact_applyOps ops Store.empty StoreExact_empty hfr)

/-- Witness for `store_invariant_after_fresh_ops`: save two samples then
delete one. -/
theorem store_invariant_after_fresh_ops_witness :
    OpsFresh Store.empty [WsOp.save 0 20 50, WsOp.save 10 30 60, WsOp.del 10] ∧
    (∀ r ∈ (applyOps Store.empty
        [WsOp.save 0 20 50, WsOp.save 10 30 60, WsOp.del 10]).data_raw,
      (∃ a, dbGetAgg (applyOps Store.empty
            [WsOp.save 0 20 50, WsOp.save 10 30 60, WsOp.del 10]).data_per_hour
          (hourBucketKey r.timestamp) = some a ∧
        ((applyOps Store.empty
            [WsOp.save 0 20 50, WsOp.save 10 30 60, WsOp.del 10]).data_per_hour.filter
          (fun x => x.timestamp == hourBucketKey r.timestamp)).length = 1 ∧
        a.number_values
          = (bucketRows (applyOps Store.empty
                [WsOp.save 0 20 50, WsOp.save 10 30 60, WsOp.del 10]).data_raw
              (hourBucketKey r.timestamp) 3600).length ∧
        computeAverages (bucketRows (applyOps Store.empty
              [WsOp.save 0 20 50, WsOp.save 10 30 60, WsOp.del 10]).data_raw
            (hourBucketKey r.timestamp) 3600) = some (statsOfRow a)) ∧
      (∃ a, dbGetAgg (applyOps Store.empty
            [WsOp.save 0 20 50, WsOp.save 10 30 60, WsOp.del 10]).data_per_day
          (dayBucketKey r.timestamp) = some a ∧
        ((applyOps Store.empty
            [WsOp.save 0 20 50, WsOp.save 10 30 60, WsOp.del 10]).data_per_day.filter
          (fun x => x.timestamp == dayBucketKey r.timestamp)).length = 1 ∧
        a.number_values
          = (bucketRows (applyOps Store.empty
                [WsOp.save 0 20 50, WsOp.save 10 30 60, WsOp.del 10]).data_raw
              (dayBucketKey r.timestamp) 86400).length ∧
        computeAverages (bucketRows (applyOps Store.empty
              [WsOp.save 0 20 50, WsOp.save 10 30 60, WsOp.del 10]).data_raw
            (dayBucketKey r.timestamp) 86400) = some (statsOfRow a))) := by
  have hfr : OpsFresh Store.empty [WsOp.save 0 20 50, WsOp.save 10 30 60, WsOp.del 10] := by
    refine ⟨rfl, ?_, trivial, trivial⟩
    rfl
  exact ⟨hfr,
    (store_invariant_after_fresh_ops [WsOp.save 0 20 50, WsOp.save 10 30 60, WsOp.del 10]
      hfr).1⟩

/-- C5 counterexample: saving twice at the same timestamp — both calls
report success to their callbacks (the `COMMIT` result) — leaves one raw
row in the bucket but an hour-table row with `number_values = 2`, violating
the claimed invariant for sequences of successful operations. -/
theorem store_invariant_counterexample :
    ((saveWeatherData Store.empty 1000 1000 1000 20 50 noFaults).callbackErr = none) ∧
    ((saveWeatherData (saveWeatherData Store.empty 1000 1000 1000 20 50 noFaults).store
        1000 1000 1000 30 60 noFaults).callbackErr = none) ∧
    ((saveWeatherData (saveWeatherData Store.empty 1000 1000 1000 20 50 noFaults).store
        1000 1000 1000 30 60 noFaults).store.data_raw = [⟨1000, 20, 50⟩]) ∧
    (dbGetAgg (saveWeatherData
        (saveWeatherData Store.empty 1000 1000 1000 20 50 noFaults).store
        1000 1000 1000 30 60 noFaults).store.data_per_hour (hourBucketKey 1000)
      = some ⟨0, 25, 55, 20, 30, 50, 60, 2⟩) ∧
    ((bucketRows (saveWeatherData
        (saveWeatherData Store.empty 1000 1000 1000 20 50 noFaults).store
        1000 1000 1000 30 60 noFaults).store.data_raw (hourBucketKey 1000) 3600).length
      = 1) ∧
    (2 : Nat) ≠ 1 := by
  have h1 : (saveWeatherData Store.empty 1000 1000 1000 20 50 noFaults).store
      = ⟨[⟨1000, 20, 50⟩], [⟨0, 20, 50, 20, 20, 50, 50, 1⟩],
          [⟨0, 20, 50, 20, 20, 50, 50, 1⟩]⟩ := by
    simp [saveWeatherData, insertRawData, dbGetRaw, Store.empty, addAndUpdateAverages,
      dbGetAgg, hourBucketKey, dayBucketKey, bucketStartOfSpan, noFaults]
  have h2 : (saveWeatherData
      (⟨[⟨1000, 20, 50⟩], [⟨0, 20, 50, 20, 20, 50, 50, 1⟩],
          [⟨0, 20, 50, 20, 20, 50, 50, 1⟩]⟩ : Store) 1000 1000 1000 30 60 noFaults).store
      = ⟨[⟨1000, 20, 50⟩], [⟨0, 25, 55, 20, 30, 50, 60, 2⟩],
          [⟨0, 25, 55, 20, 30, 50, 60, 2⟩]⟩ := by
    simp [saveWeatherData, insertRawData, dbGetRaw, addAndUpdateAverages,
      dbGetAgg, hourBucketKey, dayBucketKey, bucketStartOfSpan, updateAggRow, noFaults]
    norm_num
  refine ⟨rfl, rfl, ?_, ?_, ?_, by norm_num⟩
  · rw [h1, h2]
  · rw [h1, h2]
    simp [dbGetAgg, hourBucketKey, bucketStartOfSpan]
  · rw [h1, h2]
    simp [bucketRows, hourBucketKey, bucketStartOfSpan]
